import Mathlib

set_option maxRecDepth 8192

/-!
Verification of the query-orchestration pipeline of the crypto-agent
repository (files `src/agent.py`, `src/utils/response_utils.py`,
`src/utils/cache.py`) against its natural-language specification.

The Python code is shallowly embedded: Python values flowing through the
pipeline are modelled by the inductive `PyVal`; Python dicts appearing at
component boundaries (tool results, responses) are association lists with
first-match lookup; external effects (the two language-model calls, tool
execution, the system clock, `json.loads`, `hashlib.md5`,
`datetime.fromisoformat`) are supplied by an environment record, so that
the theorems quantify over every possible outcome of those effects.
JSON serialisation into the Redis cache (`json.dumps`/`json.loads`
round-trip) is modelled as the identity on values.
-/

/-- Model of a Python/JSON value.  Lists and dicts are encoded as cons
chains inside the same inductive (`lnil`/`lcons`, `dnil`/`dcons`) so that
equality is derivable and every operation is structurally recursive. -/
inductive PyVal where
  | pstr (s : String)
  | pnum (n : Int)
  | pbool (b : Bool)
  | pnone
  | lnil
  | lcons (hd tl : PyVal)
  | dnil
  | dcons (k : String) (v tl : PyVal)
  deriving DecidableEq, Repr

open PyVal

/-- Build a list chain from a Lean list. -/
def toPL : List PyVal → PyVal
  | [] => lnil
  | v :: vs => lcons v (toPL vs)

/-- Flatten a list chain back to a Lean list (a non-chain tail ends the list;
such a tail is unrepresentable in Python and only arises from adversarial
environments). -/
def chainToList : PyVal → List PyVal
  | lcons h t => h :: chainToList t
  | _ => []

/-- Build a dict chain from an association list. -/
def toPD : List (String × PyVal) → PyVal
  | [] => dnil
  | (k, v) :: rest => dcons k v (toPD rest)

/-- Flatten a dict chain to an association list. -/
def dictToAssoc : PyVal → List (String × PyVal)
  | dcons k v t => (k, v) :: dictToAssoc t
  | _ => []

/-- First-match lookup in a dict chain (Python dict keys are unique, so
first-match agrees with Python lookup). -/
def dGet : PyVal → String → Option PyVal
  | dcons k v t, key => if k = key then some v else dGet t key
  | _, _ => none

/-- Python `d.get(key, default)` on a dict chain. -/
def dGetD (d : PyVal) (key : String) (dflt : PyVal) : PyVal :=
  (dGet d key).getD dflt

/-- Python `key in d` on a dict chain. -/
def dHasKey (d : PyVal) (key : String) : Bool :=
  (dGet d key).isSome

/-- Whether a value is a Python dict (a dict chain). -/
def isDictVal : PyVal → Bool
  | dnil => true
  | dcons _ _ _ => true
  | _ => false

/-- Whether a value is a Python list (a list chain). -/
def isListVal : PyVal → Bool
  | lnil => true
  | lcons _ _ => true
  | _ => false

/-- Python truthiness: empty strings/lists/dicts, zero, `False` and `None`
are falsy, everything else is truthy. -/
def pyTruthy : PyVal → Bool
  | pstr s => !s.data.isEmpty
  | pnum n => n != 0
  | pbool b => b
  | pnone => false
  | lnil => false
  | lcons _ _ => true
  | dnil => false
  | dcons _ _ _ => true

/-- Python `repr`, with a tail-mode flag used to render the elements of a
list or dict chain (`true` renders `, elem` continuations).  String escaping
inside `repr` is not modelled; no claim depends on it. -/
def pyReprA : PyVal → Bool → String
  | pstr s, _ => "'" ++ s ++ "'"
  | pnum n, _ => toString n
  | pbool b, _ => cond b "True" "False"
  | pnone, _ => "None"
  | lnil, false => "[]"
  | lnil, true => ""
  | lcons h t, false => "[" ++ pyReprA h false ++ pyReprA t true ++ "]"
  | lcons h t, true => ", " ++ pyReprA h false ++ pyReprA t true
  | dnil, false => "\x7b\x7d"
  | dnil, true => ""
  | dcons k v t, false => "\x7b'" ++ k ++ "': " ++ pyReprA v false ++ pyReprA t true ++ "\x7d"
  | dcons k v t, true => ", '" ++ k ++ "': " ++ pyReprA v false ++ pyReprA t true

/-- Python `str()`, as used by f-string interpolation. -/
def pyStr : PyVal → String
  | pstr s => s
  | v => pyReprA v false

/-- Association-list lookup with string keys (models lookup in a Python
dict given as a Lean association list with unique keys). -/
def aGet {β : Type} : List (String × β) → String → Option β
  | [], _ => none
  | (k, v) :: rest, key => if k = key then some v else aGet rest key

/-- Python `d.get(key, default)` on an association-list dict. -/
def aGetD (d : List (String × PyVal)) (key : String) (dflt : PyVal) : PyVal :=
  (aGet d key).getD dflt

/-- Python `d[key] = v` on an association-list dict: an existing key keeps
its insertion position (as CPython dicts do), a new key is appended. -/
def aSet {β : Type} (d : List (String × β)) (key : String) (v : β) : List (String × β) :=
  if (aGet d key).isSome then
    d.map (fun p => if p.1 = key then (key, v) else p)
  else
    d ++ [(key, v)]

/-- Characters Python `str.strip()` removes (ASCII whitespace; exotic
Unicode whitespace is not modelled). -/
def isPyWhitespace (c : Char) : Bool :=
  c = ' ' || c = '\t' || c = '\n' || c = '\r' || c = '\x0b' || c = '\x0c'

/-- Python `str.strip()`. -/
def pyStrip (s : String) : String :=
  ⟨((s.data.dropWhile isPyWhitespace).reverse.dropWhile isPyWhitespace).reverse⟩

/-- Python `str.lower()` (ASCII; full Unicode case folding is not
modelled, the strings scanned by the code are ASCII keywords). -/
def pyLower (s : String) : String :=
  ⟨s.data.map Char.toLower⟩

/-- Whether the first character list is a prefix of the second. -/
def isPrefixChars : List Char → List Char → Bool
  | [], _ => true
  | _ :: _, [] => false
  | a :: as, b :: bs => a = b && isPrefixChars as bs

/-- Whether the first character list occurs inside the second
(Python `needle in hay` for non-empty needles). -/
def isInsideChars (needle : List Char) : List Char → Bool
  | [] => isPrefixChars needle []
  | c :: rest => isPrefixChars needle (c :: rest) || isInsideChars needle rest

/-- Python `needle in hay` on strings. -/
def pyInStr (needle hay : String) : Bool :=
  isInsideChars needle.data hay.data

/-- Python `s.startswith(p)`. -/
def pyStartsWith (s p : String) : Bool :=
  isPrefixChars p.data s.data

/-- Python `s.endswith(p)`. -/
def pyEndsWith (s p : String) : Bool :=
  isPrefixChars p.data.reverse s.data.reverse

/-- Drop the first `n` characters of a string (Python `s[n:]`). -/
def dropLeftStr (s : String) (n : Nat) : String :=
  ⟨s.data.drop n⟩

/-- Drop the last `n` characters of a string (Python `s[:-n]` for `n` at
most the length). -/
def dropRightStr (s : String) (n : Nat) : String :=
  ⟨(s.data.reverse.drop n).reverse⟩

/-- Python `str.split(sep)` for a non-empty separator, on character lists,
with fuel (the fuel is the length of the input, which bounds the number of
steps).  Produces the list of fragments between non-overlapping
left-to-right occurrences of the separator. -/
def pySplitAux (sep : List Char) : Nat → List Char → List Char → List (List Char)
  | 0, rest, acc => [acc.reverse ++ rest]
  | _ + 1, [], acc => [acc.reverse]
  | fuel + 1, c :: rest, acc =>
    if sep ≠ [] ∧ isPrefixChars sep (c :: rest) then
      acc.reverse :: pySplitAux sep fuel ((c :: rest).drop sep.length) []
    else
      pySplitAux sep fuel rest (acc ++ [c])

/-- Python `s.split(sep)`. -/
def pySplit (s sep : String) : List String :=
  (pySplitAux sep.data (s.data.length + 1) s.data []).map (fun cs => ⟨cs⟩)

/-- Python `s.replace(old, new)` (all occurrences) on character lists,
with fuel. -/
def pyReplaceAux (old new : List Char) : Nat → List Char → List Char
  | 0, rest => rest
  | _ + 1, [] => []
  | fuel + 1, c :: rest =>
    if old ≠ [] ∧ isPrefixChars old (c :: rest) then
      new ++ pyReplaceAux old new fuel ((c :: rest).drop old.length)
    else
      c :: pyReplaceAux old new fuel rest

/-- Python `s.replace(old, new)`. -/
def pyReplaceStr (s old new : String) : String :=
  ⟨pyReplaceAux old.data new.data (s.data.length + 1) s.data⟩

/-- Lexicographic code-point comparison of character lists: the order
Python uses to compare strings. -/
def lexLE : List Char → List Char → Bool
  | [], _ => true
  | _ :: _, [] => false
  | a :: as, b :: bs =>
    if a.toNat < b.toNat then true
    else if b.toNat < a.toNat then false
    else lexLE as bs

theorem lexLE_total (a b : List Char) : lexLE a b = true ∨ lexLE b a = true := by
  induction a generalizing b with
  | nil => left; rfl
  | cons x xs ih =>
    cases b with
    | nil => right; rfl
    | cons y ys =>
      by_cases hxy : x.toNat < y.toNat
      · left; simp [lexLE, hxy]
      · by_cases hyx : y.toNat < x.toNat
        · right; simp [lexLE, hyx]
        · rcases ih ys with h | h
          · left; simp [lexLE, hxy, hyx, h]
          · right; simp [lexLE, hxy, hyx, h]

theorem lexLE_trans {a b c : List Char} (hab : lexLE a b = true)
    (hbc : lexLE b c = true) : lexLE a c = true := by
  induction a generalizing b c with
  | nil => rfl
  | cons x xs ih =>
    cases b with
    | nil => simp [lexLE] at hab
    | cons y ys =>
      cases c with
      | nil => simp [lexLE] at hbc
      | cons z zs =>
        simp only [lexLE] at hab hbc ⊢
        split at hab
        · rename_i hxy
          split at hbc
          · rename_i hyz; simp [show x.toNat < z.toNat by omega]
          · split at hbc
            · exact absurd hbc (by simp)
            · rename_i h1 h2
              have hyz : y.toNat = z.toNat := by omega
              simp [show x.toNat < z.toNat by omega]
        · split at hab
          · exact absurd hab (by simp)
          · rename_i hxy hyx
            have hxyeq : x.toNat = y.toNat := by omega
            split at hbc
            · rename_i hyz
              simp [show x.toNat < z.toNat by omega]
            · split at hbc
              · exact absurd hbc (by simp)
              · rename_i h1 h2
                have hyzeq : y.toNat = z.toNat := by omega
                have h3 : ¬ x.toNat < z.toNat := by omega
                have h4 : ¬ z.toNat < x.toNat := by omega
                simp [h3, h4]
                exact ih hab hbc

theorem lexLE_nil_right {a : List Char} (h : lexLE a [] = true) : a = [] := by
  cases a with
  | nil => rfl
  | cons x xs => simp [lexLE] at h

/-! ## Embedding of `src/utils/response_utils.py` -/

/-- The clean-up both JSON parse sites apply before `json.loads`
(`response_utils.parse_llm_response` lines 13-22 and `agent.select_tools`
lines 68-74): strip, drop a leading markdown fence `` ```json ``, drop a
trailing `` ``` ``, strip again. -/
def cleanJsonInput (s : String) : String :=
  let c := pyStrip s
  let c := if pyStartsWith c "```json" then dropLeftStr c 7 else c
  let c := if pyEndsWith c "```" then dropRightStr c 3 else c
  pyStrip c

/-- Python `extract_info_from_text` (`response_utils.py` lines 49-69):
keyword scan for a sentiment, fixed trending topics, raw text as answer. -/
def extract_info_from_text (responseText now : String) : List (String × PyVal) :=
  let sentiment : String :=
    if pyInStr "bullish" (pyLower responseText) then "Bullish"
    else if pyInStr "bearish" (pyLower responseText) then "Bearish"
    else if pyInStr "mixed" (pyLower responseText) then "Mixed"
    else "Neutral"
  [("query", pstr "Crypto market analysis"),
   ("answer", pstr responseText),
   ("sentiment", pstr sentiment),
   ("context", pstr "Based on analysis of recent news."),
   ("trending_topics", toPL [pstr "Bitcoin", pstr "Ethereum", pstr "Cryptocurrency",
      pstr "Market Analysis", pstr "Trading"]),
   ("article_analysis", lnil),
   ("processed_at", pstr now)]

/-- Python `fallback_response` (`response_utils.py` lines 71-82). -/
def fallback_response (errorMessage now : String) : List (String × PyVal) :=
  [("query", pstr "Crypto market analysis"),
   ("answer", pstr ("I encountered an error: " ++ errorMessage ++
      ". However, I can still provide you with recent cryptocurrency news.")),
   ("sentiment", pstr "Neutral"),
   ("context", pstr "Unable to analyze market sentiment due to an error."),
   ("trending_topics", toPL [pstr "Bitcoin", pstr "Ethereum", pstr "Cryptocurrency"]),
   ("articles", lnil),
   ("article_analysis", lnil),
   ("processed_at", pstr now)]

/-- Python `parse_llm_response` (`response_utils.py` lines 9-33).  The
stdlib `json.loads` is an environment capability `jloads`; `none` models a
`JSONDecodeError`.  A successful parse that is not a dict yields
`fallback_response "Response format error"`; a parse failure falls back to
`extract_info_from_text` on the original text. -/
def parse_llm_response (jloads : String → Option PyVal) (now : String)
    (responseText : String) : List (String × PyVal) :=
  match jloads (cleanJsonInput responseText) with
  | none => extract_info_from_text responseText now
  | some v => if isDictVal v then dictToAssoc v else fallback_response "Response format error" now

/-! ## Embedding of `src/utils/cache.py` (article read/write paths)

The Redis store is an association list from key to the stored value; the
`json.dumps`/`json.loads` round-trip through Redis is modelled as the
identity on values, and a stored value is always truthy on read (its JSON
text is a non-empty string). -/

/-- Redis key/value store. -/
abbrev Store := List (String × PyVal)

/-- Redis `SET`: a single-key overwrite; a key holds at most one record. -/
def rSet (st : Store) (key : String) (v : PyVal) : Store :=
  st.filter (fun p => p.1 ≠ key) ++ [(key, v)]

/-- Redis `GET`. -/
def rGet (st : Store) (key : String) : Option PyVal :=
  aGet st key

/-- Cache key of an article: the articles namespace plus the `md5` hex
digest of the article link (`cache.py` lines 31-32).  `md5hex` abstracts
`hashlib.md5(...).hexdigest()`. -/
def articleKey (md5hex : String → String) (link : String) : String :=
  "crypto:news:articles:" ++ md5hex link

/-- The per-article store loop of `RedisCache.set_articles` (`cache.py`
lines 24-34).  Returns the store together with a success flag: an article
that is not a dict (`article.get` raises) or whose truthy link is not a
string (`article_id.encode()` raises) aborts the loop — the surrounding
`try` catches the exception after the earlier writes have already happened
and before `last_update` is written. -/
def setArticlesGo (md5hex : String → String) : Store → List PyVal → Store × Bool
  | st, [] => (st, true)
  | st, a :: rest =>
    if isDictVal a then
      let lid := dGetD a "link" pnone
      if ¬ pyTruthy lid then setArticlesGo md5hex st rest
      else
        match lid with
        | pstr s => setArticlesGo md5hex (rSet st (articleKey md5hex s) a) rest
        | _ => (st, false)
    else (st, false)

/-- Python `RedisCache.set_articles` (`cache.py` lines 21-39): store each
article under the hash of its link, then write the bulk `last_update`
marker (skipped if the loop raised). -/
def set_articles (md5hex : String → String) (now : String) (st : Store)
    (articles : List PyVal) : Store :=
  match setArticlesGo md5hex st articles with
  | (st2, true) => rSet st2 "crypto:news:last_update" (pstr now)
  | (st2, false) => st2

/-- Whether the age-window filter of `RedisCache.get_articles` (`cache.py`
lines 52-59) excludes an article: only an article whose `published` field
is a string that `datetime.fromisoformat` (capability `parseISO`, on the
string after `replace("Z", "+00:00")`) parses to a time before the cutoff
is excluded; a missing, non-string or unparseable timestamp raises inside
the `try`, the exception is swallowed and the article is kept. -/
def pubExcluded (parseISO : String → Option Int) (now : Int) (hoursBack : Int)
    (a : PyVal) : Bool :=
  match dGet a "published" with
  | some (pstr s) =>
    match parseISO (pyReplaceStr s "Z" "+00:00") with
    | some t => decide (t < now - hoursBack * 3600)
    | none => false
  | _ => false

/-- The articles that survive the key scan and the age-window filter of
`get_articles`, before sorting and truncation. -/
def keptArticles (parseISO : String → Option Int) (now : Int) (st : Store)
    (hoursBack : Option Int) : List PyVal :=
  ((st.filter (fun p => pyStartsWith p.1 "crypto:news:articles:")).map Prod.snd).filter
    (fun a =>
      match hoursBack with
      | some hb => ¬ pubExcluded parseISO now hb a
      | none => true)

/-- Sort key of `get_articles` (`cache.py` line 63): `x.get("published", "")`
as a character list.  A present non-string `published` is mapped to the
empty key here, but such a key never reaches a comparison: `get_articles`
below collapses to `[]` in that case, mirroring the `TypeError` Python
raises when the sort compares a string key with a non-string one. -/
def pubKeyChars (a : PyVal) : List Char :=
  match dGet a "published" with
  | some (pstr s) => s.data
  | _ => []

/-- Comparison used to model `articles.sort(key=..., reverse=True)`:
descending lexicographic order on the sort key. -/
def pubDescLE (a b : PyVal) : Bool :=
  lexLE (pubKeyChars b) (pubKeyChars a)

/-- Whether an article's sort key `x.get("published", "")` is a string:
true when `published` is missing (the default `""` is a string) or holds
a string, false when it holds a non-string value. -/
def pubKeyIsStr (a : PyVal) : Bool :=
  match dGet a "published" with
  | none => true
  | some (pstr _) => true
  | some _ => false

/-- Python `RedisCache.get_articles` (`cache.py` lines 41-68): scan the
article namespace, apply the optional age-window filter, sort newest
first, truncate to `limit`.  When at least two articles survive the
filter and their sort keys mix strings with non-strings, Python's
`list.sort` raises `TypeError` at the first mixed comparison (binary
insertion compares every element against some neighbour, so with two or
more elements a mixed pair is always compared); the outer `except` at
lines 66-68 then returns `[]`, which the second branch models.  A store
whose surviving keys are all non-strings of one comparable type would
sort in Python but yields `[]` here; no claim reaches that corner. -/
def get_articles (parseISO : String → Option Int) (now : Int) (st : Store)
    (limit : Nat) (hoursBack : Option Int) : List PyVal :=
  if (keptArticles parseISO now st hoursBack).length ≤ 1
      ∨ (keptArticles parseISO now st hoursBack).all pubKeyIsStr = true then
    ((keptArticles parseISO now st hoursBack).mergeSort pubDescLE).take limit
  else []

/-! ## Embedding of `src/agent.py` (TrenchCryptoAgent)

Python exceptions inside the orchestrator are modelled with `Except`: an
`.error` value is an in-flight exception, caught exactly where the Python
`try`/`except` blocks catch it.  The environment resolves every external
effect, so a theorem quantified over `Env` covers every combination of
tool and model outcomes, including exceptions raised at any await point. -/

/-- One per-tool result dict, as returned by a tool's `execute`. -/
abbrev ToolResult := List (String × PyVal)

/-- Outcomes of the external effects of one `process_query` run.
`selectLLM`/`synthLLM` are the tool-selection and synthesis model calls
(`.error` models an exception raised while invoking the model),
`jloads` is `json.loads` (`none` models `JSONDecodeError`), `toolExec`
is tool execution by tool name and input (`.error` models an exception
escaping `execute`), `now` is `datetime.now().isoformat()`. -/
structure Env where
  selectLLM : Except String String
  synthLLM : Except String String
  jloads : String → Option PyVal
  toolExec : String → PyVal → Except String ToolResult
  now : String

/-- Observable calls of one run: primary-pass tool dispatches, fallback
probes (tagged with the fallback stage, 1 = token probe, 2 = generic
social, 3 = generic news), a fallback result being merged into the
dataset, and the synthesis model call. -/
inductive Event where
  | toolCall (name : String) (input : PyVal)
  | fallbackCall (stage : Nat) (name : String) (input : PyVal)
  | fallbackMerged (name : String)
  | synthCall
  deriving DecidableEq, Repr

/-- The tool names registered in `TrenchCryptoAgent.__init__` (`agent.py`
lines 23-27), in registration order. -/
def registeredToolNames : List String :=
  ["crypto_news", "crypto_search", "twitter", "dexscreener"]

/-- The fixed default dispatch pair of `select_tools` (`agent.py` lines
80-83 and 112-115). -/
def defaultToolPair (query : String) : List PyVal :=
  [toPD [("name", pstr "crypto_search"), ("custom_input", pstr query)],
   toPD [("name", pstr "twitter"), ("custom_input", pstr query)]]

/-- The tool selection prompt template of `src/prompts.py` (constant
`TOOL_SELECTION_PROMPT`, lines 1-55), transcribed verbatim.  Its only
well-formed replacement field is named `tool_descriptions` (line 5), and
its JSON examples contain unescaped braces. -/
def TOOL_SELECTION_PROMPT : String :=
  "You are TrenchBotAssistant, an expert cryptocurrency market intelligence assistant.\n" ++
  "\n" ++
  "Based on the user's query, select the most appropriate tool(s) to use. Here are the available tools:\n" ++
  "\n" ++
  "\x7btool_descriptions\x7d\n" ++
  "\n" ++
  "Select ONE tool if possible. Only select a second tool if it would provide significantly complementary value that the first tool cannot provide alone.\n" ++
  "\n" ++
  "IMPORTANT: You must respond EXACTLY in the following JSON format:\n" ++
  "\n" ++
  "\x7b\n" ++
  "  \"tools_needed\": [\n" ++
  "    \x7b\n" ++
  "      \"name\": \"tool_name\",\n" ++
  "      \"custom_input\": \"refined input for this specific tool\"\n" ++
  "    \x7d\n" ++
  "  ]\n" ++
  "\x7d\n" ++
  "\n" ++
  "For example, if the user asks about Bitcoin price trends, respond with:\n" ++
  "\x7b\n" ++
  "  \"tools_needed\": [\n" ++
  "    \x7b\n" ++
  "      \"name\": \"crypto_news\",\n" ++
  "      \"custom_input\": \"bitcoin price trends\"\n" ++
  "    \x7d\n" ++
  "  ]\n" ++
  "\x7d\n" ++
  "\n" ++
  "For queries about specific tokens that may not be mainstream, use crypto_search or twitter:\n" ++
  "\x7b\n" ++
  "  \"tools_needed\": [\n" ++
  "    \x7b\n" ++
  "      \"name\": \"crypto_search\",\n" ++
  "      \"custom_input\": \"monalisa token price trends\"\n" ++
  "    \x7d,\n" ++
  "    \x7b\n" ++
  "      \"name\": \"twitter\",\n" ++
  "      \"custom_input\": \"monalisa token crypto\"\n" ++
  "    \x7d\n" ++
  "  ]\n" ++
  "\x7d\n" ++
  "\n" ++
  "For on-chain token analytics (price, liquidity, volume, etc.), use dexscreener:\n" ++
  "\x7b\n" ++
  "  \"tools_needed\": [\n" ++
  "    \x7b\n" ++
  "      \"name\": \"dexscreener\",\n" ++
  "      \"custom_input\": \"ethereum 0x1234...\"\n" ++
  "    \x7d\n" ++
  "  ]\n" ++
  "\x7d\n" ++
  "\n" ++
  "ONLY respond with valid JSON in exactly the format shown. Do not include any explanation or additional text.\n"

/-- The name/description pairs of the registered tools, from the four
tool classes (`crypto_news_tool.py` line 17, `crypto_search_tool.py`
line 15, `twitter_tool.py` line 16, `dexscreener_tool.py` line 15), in
registration order. -/
def registeredToolDescriptions : List (String × String) :=
  [("crypto_news", "Get the latest cryptocurrency news articles. Use this for general market updates and trends."),
   ("crypto_search", "Search for cryptocurrency news articles by keyword. Use this when looking for specific topics or cryptocurrencies."),
   ("twitter", "Get cryptocurrency-related data from Twitter/X. Use this for real-time social media insights if twitter/X is specifically mentioned."),
   ("dexscreener", "Get real-time token price, liquidity, volume, trending pairs, and trading data from Dexscreener. Use this for on-chain token analytics, trending tokens, and DEX pair search.")]

/-- The joined tool description block built at `agent.py` lines 53-56. -/
def toolDescriptionsText : String :=
  String.intercalate "\n"
    (registeredToolDescriptions.map (fun p => "- " ++ p.1 ++ ": " ++ p.2))

/-- Model of CPython `str.format` called with a single keyword argument:
scan the template left to right; doubled braces are literals, a
replacement field consults the provided keyword name, an unknown field
name raises `KeyError`, a stray or nested brace raises `ValueError`.
Format specs and auto-numbering are not modelled; the template above uses
neither, and the scan errors at its first replacement field either way. -/
def pyFormatAux (name : String) (value : String) :
    Nat → List Char → Except String (List Char)
  | 0, _ => Except.error "format: out of fuel"
  | _ + 1, [] => Except.ok []
  | fuel + 1, c :: rest =>
    if c = '\x7b' then
      match rest with
      | [] => Except.error "ValueError: single left brace at end"
      | d :: rest2 =>
        if d = '\x7b' then
          match pyFormatAux name value fuel rest2 with
          | Except.error e => Except.error e
          | Except.ok out => Except.ok ('\x7b' :: out)
        else
          let fieldChars := (d :: rest2).takeWhile
            (fun x => !(x == '\x7b') && !(x == '\x7d'))
          match (d :: rest2).drop fieldChars.length with
          | '\x7d' :: rest4 =>
            if String.mk fieldChars = name then
              match pyFormatAux name value fuel rest4 with
              | Except.error e => Except.error e
              | Except.ok out => Except.ok (value.data ++ out)
            else Except.error ("KeyError: " ++ String.mk fieldChars)
          | _ => Except.error "ValueError: bad replacement field"
    else if c = '\x7d' then
      match rest with
      | [] => Except.error "ValueError: single right brace"
      | d :: rest2 =>
        if d = '\x7d' then
          match pyFormatAux name value fuel rest2 with
          | Except.error e => Except.error e
          | Except.ok out => Except.ok ('\x7d' :: out)
        else Except.error "ValueError: single right brace"
    else
      match pyFormatAux name value fuel rest with
      | Except.error e => Except.error e
      | Except.ok out => Except.ok (c :: out)

/-- Python `template.format(name=value)`. -/
def pyFormat (template name value : String) : Except String String :=
  match pyFormatAux name value (template.data.length + 1) template.data with
  | Except.error e => Except.error e
  | Except.ok out => Except.ok (String.mk out)

/-- Python `obj.get(key, default)` where `obj` must be a dict
(an `AttributeError` otherwise). -/
def pyGetA (v : PyVal) (key : String) (dflt : PyVal) : Except String PyVal :=
  if isDictVal v then Except.ok (dGetD v key dflt) else Except.error "AttributeError"

/-- Python iteration over a value (`extend`, `for`, comprehensions): a
list yields its elements, a string its characters, a dict its keys;
anything else raises `TypeError`. -/
def pyIterate : PyVal → Except String (List PyVal)
  | pstr s => Except.ok (s.data.map (fun c => pstr ⟨[c]⟩))
  | lnil => Except.ok []
  | lcons h t => Except.ok (h :: chainToList t)
  | dnil => Except.ok []
  | dcons k _ t => Except.ok (pstr k :: (dictToAssoc t).map (fun p => pstr p.1))
  | _ => Except.error "TypeError: not iterable"

/-- The body of `select_tools` after a successful JSON parse (`agent.py`
lines 76-101): read `tools_needed`, degrade to the default pair when it is
falsy, otherwise keep the invocations naming registered tools.  An
`.error` is an exception reaching the outer `except` (non-dict receiver of
`.get`, non-iterable `tools_needed`, unhashable name in the `in` test). -/
def toSelection (parsed : PyVal) (query : String) : Except String (List PyVal) :=
  match pyGetA parsed "tools_needed" lnil with
  | Except.error e => Except.error e
  | Except.ok tn =>
    if ¬ pyTruthy tn then
      Except.ok (defaultToolPair query)
    else
      match pyIterate tn with
      | Except.error e => Except.error e
      | Except.ok items =>
        items.foldlM (fun acc tool =>
          match pyGetA tool "name" pnone with
          | Except.error e => Except.error e
          | Except.ok (pstr s) =>
            Except.ok (if s ∈ registeredToolNames then acc ++ [tool] else acc)
          | Except.ok (lnil) | Except.ok (lcons _ _) | Except.ok (dnil)
          | Except.ok (dcons _ _ _) => Except.error "TypeError: unhashable type"
          | Except.ok _ => Except.ok acc) []

/-- Python `TrenchCryptoAgent.select_tools` (`agent.py` lines 50-115).
The prompt construction at line 58 calls
`TOOL_SELECTION_PROMPT.format` with the keyword argument `tools_needed`,
but the template's replacement field is named `tool_descriptions` (and
the JSON examples hold unescaped braces), so `str.format` raises
unconditionally, before the model is ever invoked; the outer `except`
then returns the fixed default pair on every call.  The branches below
the format call are dead code: in them, an exception while prompting the
model or inside the parsed-JSON branch yields the default pair, while a
`JSONDecodeError` is caught by the inner `except json.JSONDecodeError`
whose default-pair `return` is commented out, so that branch would fall
through and return Python `None`, modelled as `none`. -/
def select_tools (env : Env) (query : String) : Option (List PyVal) :=
  match pyFormat TOOL_SELECTION_PROMPT "tools_needed" toolDescriptionsText with
  | Except.error _ => some (defaultToolPair query)
  | Except.ok _prompt =>
    match env.selectLLM with
    | Except.error _ => some (defaultToolPair query)
    | Except.ok content =>
      match env.jloads (cleanJsonInput content) with
      | none => none
      | some parsed =>
        match toSelection parsed query with
        | Except.error _ => some (defaultToolPair query)
        | Except.ok valid => some valid

/-- Task creation of `process_query` (`agent.py` lines 127-138): for each
selected invocation read its name and custom input and keep it when the
name is registered.  An `.error` is an exception reaching the top-level
handler. -/
def makeTasks (selected : List PyVal) (query : String) :
    Except String (List (String × PyVal)) :=
  selected.foldlM (fun acc ti =>
    match pyGetA ti "name" pnone with
    | Except.error e => Except.error e
    | Except.ok nm =>
      let ci := dGetD ti "custom_input" (pstr query)
      match nm with
      | lnil | lcons _ _ | dnil | dcons _ _ _ => Except.error "TypeError: unhashable type"
      | pstr s => Except.ok (if s ∈ registeredToolNames then acc ++ [(s, ci)] else acc)
      | _ => Except.ok acc) []

/-- Result gathering of `process_query` (`agent.py` lines 140-158): await
each task in creation order; a raised exception is logged and the tool
skipped; a result carrying an `error` key with no tweets and no articles
is discarded; everything else is merged into `tool_responses` in await
order. -/
def gatherResponses (env : Env) (tasks : List (String × PyVal)) :
    List (String × ToolResult) :=
  tasks.foldl (fun acc t =>
    match env.toolExec t.1 t.2 with
    | Except.error _ => acc
    | Except.ok result =>
      if (aGet result "error").isSome ∧ ¬ pyTruthy (aGetD result "tweets" lnil)
          ∧ ¬ pyTruthy (aGetD result "articles" lnil) then
        acc
      else aSet acc t.1 result) []

/-- The combined dataset of `process_query` (`agent.py` lines 160-164). -/
structure Combined where
  articles : List PyVal
  tweets : List PyVal
  timeContext : PyVal
  deriving DecidableEq, Repr

/-- The tweet-to-article conversion of the merge (`agent.py` lines
178-187, repeated at 217-225 and 241-249). -/
def tweetToArticle (tweet : PyVal) : Except String PyVal :=
  match pyGetA tweet "author" (pstr "unknown") with
  | Except.error e => Except.error e
  | Except.ok author => Except.ok (toPD
    [("title", pstr ("Tweet by @" ++ pyStr author)),
     ("summary", dGetD tweet "text" (pstr "")),
     ("link", pstr ("https://twitter.com/" ++ pyStr author ++ "/status/"
        ++ pyStr (dGetD tweet "id" (pstr "")))),
     ("published", dGetD tweet "created_at" (pstr "")),
     ("category", pstr "Social Media"),
     ("subCategory", pstr "Twitter")])

/-- The tweet merge step shared by the primary merge and the fallback
stages: extend the combined tweets, then append one synthesized article
per tweet. -/
def mergeTweetsInto (c : Combined) (tweets : List PyVal) : Except String Combined :=
  match tweets.mapM tweetToArticle with
  | Except.error e => Except.error e
  | Except.ok arts =>
    Except.ok { c with tweets := c.tweets ++ tweets, articles := c.articles ++ arts }

/-- Merge of one usable tool response into the combined dataset
(`agent.py` lines 167-191): append its articles, append its tweets (each
also as a synthesized article), adopt its `time_context` last-wins. -/
def mergeOne (c : Combined) (resp : ToolResult) : Except String Combined :=
  match (if (aGet resp "articles").isSome then
      match pyIterate (aGetD resp "articles" lnil) with
      | Except.error e => Except.error e
      | Except.ok els => Except.ok { c with articles := c.articles ++ els }
    else Except.ok c) with
  | Except.error e => Except.error e
  | Except.ok c1 =>
    match (if (aGet resp "tweets").isSome then
        match pyIterate (aGetD resp "tweets" lnil) with
        | Except.error e => Except.error e
        | Except.ok tws => mergeTweetsInto c1 tws
      else Except.ok c1) with
    | Except.error e => Except.error e
    | Except.ok c2 =>
      Except.ok (if (aGet resp "time_context").isSome then
          { c2 with timeContext := aGetD resp "time_context" pnone }
        else c2)

/-- The primary merge over all usable tool responses in await order
(`agent.py` lines 160-191). -/
def mergeResponses (rs : List (String × ToolResult)) : Except String Combined :=
  rs.foldlM (fun c p => mergeOne c p.2) ⟨[], [], pstr "Recent news"⟩

/-- Token-name extraction of the fallback chain (`agent.py` lines
195-205): the text before the word "token" in the lowered query, then an
override from `additional_context.token_data.token_name` when present. -/
def extractTokenName (query : String) (ctx : Option (List (String × PyVal))) :
    Except String PyVal :=
  let t1 : PyVal :=
    if pyInStr "token" (pyLower query) then
      let possibleTokens := pySplit (pyLower query) "token"
      if possibleTokens.length > 0 then pstr (pyStrip (possibleTokens.headD "")) else pnone
    else pnone
  match ctx with
  | some c =>
    if c ≠ [] ∧ (aGet c "token_data").isSome then
      pyGetA (aGetD c "token_data" dnil) "token_name" (pstr "")
    else Except.ok t1
  | none => Except.ok t1

/-- Fallback stage 1, the token probe (`agent.py` lines 193-229): when the
primary merge produced no articles, a token name was identified and the
twitter source is not already among the usable responses, probe twitter
with the token; merge its tweets when non-empty.  The probe await is not
wrapped in a `try`, so a raised exception (`.error`) propagates. -/
def chainStage1 (env : Env) (query : String) (ctx : Option (List (String × PyVal)))
    (c : Combined) (rs : List (String × ToolResult)) :
    Except String (Combined × List (String × ToolResult)) × List Event :=
  if c.articles = [] then
    match extractTokenName query ctx with
    | Except.error e => (Except.error e, [])
    | Except.ok tn =>
      if pyTruthy tn ∧ (aGet rs "twitter").isNone then
        let input := pstr (pyStr tn ++ " token cryptocurrency")
        match env.toolExec "twitter" input with
        | Except.error e => (Except.error e, [Event.fallbackCall 1 "twitter" input])
        | Except.ok tr =>
          if tr ≠ [] ∧ (aGet tr "tweets").isSome then
            let tws := aGetD tr "tweets" lnil
            if pyTruthy tws then
              match pyIterate tws with
              | Except.error e => (Except.error e, [Event.fallbackCall 1 "twitter" input])
              | Except.ok els =>
                match mergeTweetsInto c els with
                | Except.error e => (Except.error e, [Event.fallbackCall 1 "twitter" input])
                | Except.ok c2 =>
                  (Except.ok (c2, aSet rs "twitter" tr),
                   [Event.fallbackCall 1 "twitter" input, Event.fallbackMerged "twitter"])
            else (Except.ok (c, rs), [Event.fallbackCall 1 "twitter" input])
          else (Except.ok (c, rs), [Event.fallbackCall 1 "twitter" input])
      else (Except.ok (c, rs), [])
  else (Except.ok (c, rs), [])

/-- Fallback stage 2, the generic social fallback (`agent.py` lines
231-253): when there are still no articles and twitter is not among the
usable responses, retry twitter with the raw query. -/
def chainStage2 (env : Env) (query : String) (c : Combined)
    (rs : List (String × ToolResult)) :
    Except String (Combined × List (String × ToolResult)) × List Event :=
  if c.articles = [] ∧ (aGet rs "twitter").isNone then
    let input := pstr query
    match env.toolExec "twitter" input with
    | Except.error e => (Except.error e, [Event.fallbackCall 2 "twitter" input])
    | Except.ok tr =>
      if tr ≠ [] ∧ (aGet tr "tweets").isSome then
        let tws := aGetD tr "tweets" lnil
        if pyTruthy tws then
          match pyIterate tws with
          | Except.error e => (Except.error e, [Event.fallbackCall 2 "twitter" input])
          | Except.ok els =>
            match mergeTweetsInto c els with
            | Except.error e => (Except.error e, [Event.fallbackCall 2 "twitter" input])
            | Except.ok c2 =>
              (Except.ok (c2, aSet rs "twitter" tr),
               [Event.fallbackCall 2 "twitter" input, Event.fallbackMerged "twitter"])
        else (Except.ok (c, rs), [Event.fallbackCall 2 "twitter" input])
      else (Except.ok (c, rs), [Event.fallbackCall 2 "twitter" input])
  else (Except.ok (c, rs), [])

/-- Fallback stage 3, the generic news fallback (`agent.py` lines
255-266): when there are still no articles and crypto_news is not among
the usable responses, retry crypto_news with the raw query and append its
articles when truthy. -/
def chainStage3 (env : Env) (query : String) (c : Combined)
    (rs : List (String × ToolResult)) :
    Except String (Combined × List (String × ToolResult)) × List Event :=
  if c.articles = [] ∧ (aGet rs "crypto_news").isNone then
    let input := pstr query
    match env.toolExec "crypto_news" input with
    | Except.error e => (Except.error e, [Event.fallbackCall 3 "crypto_news" input])
    | Except.ok nr =>
      if nr ≠ [] ∧ (aGet nr "articles").isSome ∧ pyTruthy (aGetD nr "articles" lnil) then
        match pyIterate (aGetD nr "articles" lnil) with
        | Except.error e => (Except.error e, [Event.fallbackCall 3 "crypto_news" input])
        | Except.ok els =>
          (Except.ok ({ c with articles := c.articles ++ els }, aSet rs "crypto_news" nr),
           [Event.fallbackCall 3 "crypto_news" input, Event.fallbackMerged "crypto_news"])
      else (Except.ok (c, rs), [Event.fallbackCall 3 "crypto_news" input])
  else (Except.ok (c, rs), [])

/-- The whole fallback chain (`agent.py` lines 193-266), threading state
and accumulating events; an `.error` carries an exception to the
top-level handler together with the events already emitted. -/
def fallbackChain (env : Env) (query : String) (ctx : Option (List (String × PyVal)))
    (c0 : Combined) (rs0 : List (String × ToolResult)) :
    Except String (Combined × List (String × ToolResult)) × List Event :=
  match chainStage1 env query ctx c0 rs0 with
  | (Except.error e, ev1) => (Except.error e, ev1)
  | (Except.ok (c1, rs1), ev1) =>
    match chainStage2 env query c1 rs1 with
    | (Except.error e, ev2) => (Except.error e, ev1 ++ ev2)
    | (Except.ok (c2, rs2), ev2) =>
      match chainStage3 env query c2 rs2 with
      | (Except.error e, ev3) => (Except.error e, ev1 ++ ev2 ++ ev3)
      | (Except.ok (c3, rs3), ev3) => (Except.ok (c3, rs3), ev1 ++ ev2 ++ ev3)

/-- Python `[:3]` slicing followed by iteration, as applied to
`article_analysis` (`agent.py` line 327): a list yields its first three
elements, a string the first three characters; a dict or scalar raises
`TypeError` (unhashable slice / not subscriptable). -/
def pySliceIter3 : PyVal → Except String (List PyVal)
  | pstr s => Except.ok ((s.data.take 3).map (fun c => pstr ⟨[c]⟩))
  | lnil => Except.ok []
  | lcons h t => Except.ok ((h :: chainToList t).take 3)
  | _ => Except.error "TypeError"

/-- Python `" ".join(parts)`: every part must be a string. -/
def joinSpace : List PyVal → Except String String
  | [] => Except.ok ""
  | [pstr s] => Except.ok s
  | pstr s :: rest => do
    let r ← joinSpace rest
    pure (s ++ " " ++ r)
  | _ => Except.error "TypeError: join"

/-- The first article-selection loop of `_build_final_response`
(`agent.py` lines 339-342): keep articles whose title appears among the
analysed titles, while below the minimum. -/
def buildLoop1 (titles : List PyVal) (minArticles : Nat) :
    List PyVal → List PyVal → Except String (List PyVal)
  | [], ret => Except.ok ret
  | a :: rest, ret =>
    match pyGetA a "title" (pstr "") with
    | Except.error e => Except.error e
    | Except.ok t =>
      if t ∈ titles ∧ ret.length < minArticles then
        buildLoop1 titles minArticles rest (ret ++ [a])
      else
        buildLoop1 titles minArticles rest ret

/-- The backfill loop of `_build_final_response` (`agent.py` lines
346-349): append articles not already selected, while below the
minimum. -/
def buildLoop2 (minArticles : Nat) (articles : List PyVal) (ret : List PyVal) :
    List PyVal :=
  articles.foldl (fun r a => if a ∉ r ∧ r.length < minArticles then r ++ [a] else r) ret

/-- The fallible part of `_build_final_response` (`agent.py` lines
324-349): the context concatenation and the article selection.  An
`.error` is an exception caught by the caller at `agent.py` line 311. -/
def buildCore (parsedJson : List (String × PyVal)) (articles : List PyVal)
    (minArticles : Nat) : Except String (String × List PyVal) :=
  let aa := aGetD parsedJson "article_analysis" lnil
  match pySliceIter3 aa with
  | Except.error e => Except.error e
  | Except.ok first3 =>
    match first3.foldlM (fun ps an =>
        match pyGetA an "significance" pnone with
        | Except.error e => Except.error e
        | Except.ok s => Except.ok (if pyTruthy s then ps ++ [s] else ps)) [] with
    | Except.error e => Except.error e
    | Except.ok contextParts =>
      match (if contextParts ≠ [] then joinSpace contextParts
          else Except.ok "Based on analysis of recent cryptocurrency news.") with
      | Except.error e => Except.error e
      | Except.ok context =>
        match (if pyTruthy aa then
            match pyIterate aa with
            | Except.error e => Except.error e
            | Except.ok allEntries =>
              match allEntries.mapM (fun a => pyGetA a "title" (pstr "")) with
              | Except.error e => Except.error e
              | Except.ok titles => buildLoop1 titles minArticles articles []
          else Except.ok []) with
        | Except.error e => Except.error e
        | Except.ok ret1 =>
          Except.ok (context,
            if ret1.length < minArticles then buildLoop2 minArticles articles ret1
            else ret1)

/-- Python `TrenchCryptoAgent._ensure_required_fields` (`agent.py` lines
366-385). -/
def ensureRequiredFields (resp : List (String × PyVal)) (query now : String) :
    List (String × PyVal) :=
  let r := if (aGet resp "query").isNone then resp ++ [("query", pstr query)] else resp
  let r := if (aGet r "processed_at").isNone then r ++ [("processed_at", pstr now)] else r
  let r := if (aGet r "articles").isNone then r ++ [("articles", lnil)] else r
  if (aGet r "article_analysis").isNone then r ++ [("article_analysis", lnil)] else r

/-- Python `TrenchCryptoAgent._build_final_response` (`agent.py` lines
321-364). -/
def buildFinalResponse (query : String) (parsedJson : List (String × PyVal))
    (articles : List PyVal) (minArticles : Nat) (now : String) :
    Except String (List (String × PyVal)) :=
  match buildCore parsedJson articles minArticles with
  | Except.error e => Except.error e
  | Except.ok (context, returnArticles) =>
    Except.ok (ensureRequiredFields
      [("query", pstr query),
       ("answer", aGetD parsedJson "answer" (pstr "No analysis available.")),
       ("sentiment", aGetD parsedJson "sentiment" (pstr "Neutral")),
       ("context", pstr context),
       ("trending_topics", aGetD parsedJson "trending_topics"
          (toPL [pstr "Bitcoin", pstr "Ethereum", pstr "Cryptocurrency"])),
       ("articles", toPL (returnArticles.take minArticles)),
       ("article_analysis", aGetD parsedJson "article_analysis" lnil),
       ("processed_at", pstr now)] query now)

/-- The exception message of Python `len(None)` raised at `agent.py` line
126 when `select_tools` returned `None`. -/
def noneTypeLenMsg : String := "object of type 'NoneType' has no len()"

/-- The canonical no-data message of `agent.py` line 270. -/
def noDataMsg : String := "No relevant articles or tweets found for your query"

/-- Outcome of everything before the synthesis call: either
`select_tools` returned `None` (so `len(selected_tools)` raises before
any tool runs), or an exception reached the top-level handler with the
events emitted so far, or a combined dataset is ready. -/
inductive PreOut where
  | selNone
  | failed (msg : String) (events : List Event)
  | ready (c : Combined) (rs : List (String × ToolResult)) (events : List Event)
  deriving DecidableEq, Repr

/-- Tool selection, dispatch, gathering, primary merge and fallback chain
of `process_query` (`agent.py` lines 122-266). -/
def preSynthesis (env : Env) (query : String)
    (ctx : Option (List (String × PyVal))) : PreOut :=
  match select_tools env query with
  | none => PreOut.selNone
  | some sel =>
    match makeTasks sel query with
    | Except.error e => PreOut.failed e []
    | Except.ok tasks =>
      let ev1 := tasks.map (fun t => Event.toolCall t.1 t.2)
      let rs := gatherResponses env tasks
      match mergeResponses rs with
      | Except.error e => PreOut.failed e ev1
      | Except.ok c =>
        match fallbackChain env query ctx c rs with
        | (Except.error e, ev2) => PreOut.failed e (ev1 ++ ev2)
        | (Except.ok (c2, rs2), ev2) => PreOut.ready c2 rs2 (ev1 ++ ev2)

/-- Python `TrenchCryptoAgent.process_query` (`agent.py` lines 117-319),
returning the response dict together with the trace of observable calls.
Every exception path lands in the top-level handler, which wraps the
message in `fallback_response` and `_ensure_required_fields`. -/
def process_query (env : Env) (query : String) (minArticles : Nat)
    (ctx : Option (List (String × PyVal))) : List (String × PyVal) × List Event :=
  match preSynthesis env query ctx with
  | PreOut.selNone =>
    (ensureRequiredFields (fallback_response noneTypeLenMsg env.now) query env.now, [])
  | PreOut.failed e ev =>
    (ensureRequiredFields (fallback_response e env.now) query env.now, ev)
  | PreOut.ready c _rs ev =>
    if c.articles = [] then
      (ensureRequiredFields (fallback_response noDataMsg env.now) query env.now, ev)
    else
      let ev2 := ev ++ [Event.synthCall]
      match env.synthLLM with
      | Except.error e =>
        (ensureRequiredFields (fallback_response e env.now) query env.now, ev2)
      | Except.ok reply =>
        match buildFinalResponse query (parse_llm_response env.jloads env.now reply)
            c.articles minArticles env.now with
        | Except.ok resp => (resp, ev2)
        | Except.error e =>
          (ensureRequiredFields
            (fallback_response ("Failed to process response: " ++ e) env.now) query env.now,
           ev2)

/-! ## Derived definitions used by the claims -/

/-- Whether an article's `published` timestamp is missing or an
unparseable string — the "malformed or missing" timestamps of the age
filter.  A present non-string `published` is not "bad" in this sense:
the filter keeps it too (the `.replace` call raises `AttributeError`,
swallowed at `cache.py` line 58), but it can still make the later sort
raise (see `get_articles`). -/
def badTimestamp (parseISO : String → Option Int) (a : PyVal) : Bool :=
  match dGet a "published" with
  | none => true
  | some (pstr s) => (parseISO (pyReplaceStr s "Z" "+00:00")).isNone
  | some _ => false

/-- The four sentiment values of the response contract. -/
def fourSentiments : List PyVal :=
  [pstr "Bullish", pstr "Bearish", pstr "Neutral", pstr "Mixed"]

/-- The `sentiment` value carried by a successfully parsed synthesis
reply, if any: this is the one source from which a sentiment outside
`fourSentiments` can reach the final response. -/
def parsedReplySentiment (jloads : String → Option PyVal) (reply : String) : Option PyVal :=
  match jloads (cleanJsonInput reply) with
  | some v => if isDictVal v then aGet (dictToAssoc v) "sentiment" else none
  | none => none

/-- The sentiment override a given environment's synthesis reply carries. -/
def synthSentimentOverride (env : Env) : Option PyVal :=
  match env.synthLLM with
  | Except.ok reply => parsedReplySentiment env.jloads reply
  | Except.error _ => none

/-- The article contribution of one usable tool response to the combined
article sequence: its own articles followed by its synthesized
tweet-articles. -/
def respArticles (r : ToolResult) : Except String (List PyVal) :=
  match (if (aGet r "articles").isSome then pyIterate (aGetD r "articles" lnil)
      else Except.ok []) with
  | Except.error e => Except.error e
  | Except.ok a =>
    match (if (aGet r "tweets").isSome then
        match pyIterate (aGetD r "tweets" lnil) with
        | Except.error e => Except.error e
        | Except.ok t => t.mapM tweetToArticle
      else Except.ok []) with
    | Except.error e => Except.error e
    | Except.ok tw => Except.ok (a ++ tw)

/-- Position of a tool name in the registration order. -/
def registryIndex (n : String) : Nat :=
  registeredToolNames.indexOf n

/-- Stable insertion by registry position (ties keep their relative
order). -/
def insertByRegistry (p : String × ToolResult) :
    List (String × ToolResult) → List (String × ToolResult)
  | [] => [p]
  | q :: t =>
    if registryIndex q.1 < registryIndex p.1 then q :: insertByRegistry p t else p :: q :: t

/-- Stable sort of responses by registry position. -/
def sortByRegistry : List (String × ToolResult) → List (String × ToolResult)
  | [] => []
  | p :: t => insertByRegistry p (sortByRegistry t)

/-- Modelled from the spec ("built by merging ToolResults in
tool-registration order"): the same merge applied to the usable responses
reordered by registry position, for comparison with the code's merge. -/
def mergeInRegistrationOrder (rs : List (String × ToolResult)) : Except String Combined :=
  mergeResponses (sortByRegistry rs)

/-! ## Concrete scenarios used by counterexamples and witnesses -/

/-- An article dict used by concrete scenarios. -/
def dupArticle : PyVal := toPD [("title", pstr "A"), ("link", pstr "http://a")]

/-- A second, distinct article dict. -/
def otherArticle : PyVal := toPD [("title", pstr "B"), ("link", pstr "http://b")]

/-- Environment in which tool selection raises (so the default pair is
dispatched), crypto_search returns one article, twitter is down, and the
synthesis reply parses to a dict whose `sentiment` is the non-contract
string "Garbage". -/
def sentimentPassThroughEnv : Env where
  selectLLM := Except.error "boom"
  synthLLM := Except.ok "\x7b\"sentiment\": \"Garbage\"\x7d"
  jloads := fun s =>
    if s = "\x7b\"sentiment\": \"Garbage\"\x7d" then
      some (dcons "sentiment" (pstr "Garbage") dnil)
    else none
  toolExec := fun n _ =>
    if n = "crypto_search" then Except.ok [("articles", toPL [dupArticle])]
    else Except.error "down"
  now := "2024-06-01T00:00:00"

/-- Environment in which every source returns an empty result, so the
fallback chain exhausts. -/
def exhaustEnv : Env where
  selectLLM := Except.error "selector down"
  synthLLM := Except.error "never reached"
  jloads := fun _ => none
  toolExec := fun _ _ => Except.ok []
  now := "2024-06-02T00:00:00"

/-- An article whose `published` field is missing: its sort key defaults
to the string "". -/
def badPubArticle : PyVal := toPD [("title", pstr "t")]

/-- An article whose `published` field holds a number, not a string. -/
def numPubArticle : PyVal := toPD [("title", pstr "n"), ("published", pnum 5)]

/-! ## Helper lemmas -/

theorem chainToList_toPL (l : List PyVal) : chainToList (toPL l) = l := by
  induction l with
  | nil => rfl
  | cons h t ih => simp [toPL, chainToList, ih]

theorem aGet_append {β : Type} (l1 l2 : List (String × β)) (k : String) :
    aGet (l1 ++ l2) k = match aGet l1 k with | some v => some v | none => aGet l2 k := by
  induction l1 with
  | nil => simp [aGet]
  | cons p t ih =>
    by_cases h : p.1 = k
    · cases p; simp_all [aGet]
    · cases p; simp_all [aGet]

theorem aGet_filter_of_none {β : Type} (q : (String × β) → Bool) (k : String)
    (hq : ∀ p, p.1 = k → q p = false) :
    ∀ l : List (String × β), aGet (l.filter q) k = none := by
  intro l
  induction l with
  | nil => rfl
  | cons p t ih =>
    rw [List.filter_cons]
    cases hqp : q p with
    | true =>
      have hk : p.1 ≠ k := fun hk => by rw [hq p hk] at hqp; cases hqp
      obtain ⟨k1, v1⟩ := p
      simp only [hqp, if_pos, aGet]
      rw [if_neg (by simpa using hk)]
      exact ih
    | false => simpa [hqp] using ih

theorem aGet_filter_of_keep {β : Type} (q : (String × β) → Bool) (k : String)
    (hq : ∀ p, p.1 = k → q p = true) :
    ∀ l : List (String × β), aGet (l.filter q) k = aGet l k := by
  intro l
  induction l with
  | nil => rfl
  | cons p t ih =>
    obtain ⟨k1, v1⟩ := p
    rw [List.filter_cons]
    by_cases hk : k1 = k
    · rw [hq (k1, v1) hk]
      simp only [if_pos, aGet, hk, if_pos rfl]
    · cases hqp : q (k1, v1) with
      | true =>
        simp only [if_pos, aGet]
        rw [if_neg hk, if_neg hk]
        exact ih
      | false =>
        rw [if_neg (by simp [hqp]), ih]
        simp only [aGet]
        rw [if_neg hk]

theorem filter_filter_of {α : Type} (p q : α → Bool)
    (himp : ∀ a, p a = true → q a = true) :
    ∀ l : List α, (l.filter q).filter p = l.filter p := by
  intro l
  induction l with
  | nil => rfl
  | cons a t ih =>
    rw [List.filter_cons]
    cases hqa : q a with
    | true =>
      rw [if_pos (by simp), List.filter_cons, List.filter_cons, ih]
    | false =>
      have hpa : p a = false := by
        cases hpb : p a with
        | true => rw [himp a hpb] at hqa; cases hqa
        | false => rfl
      rw [if_neg (by simp), List.filter_cons, if_neg (by simp [hpa]), ih]

theorem aGet_filter_ne {β : Type} (l : List (String × β)) (k : String) :
    aGet (l.filter (fun p => p.1 ≠ k)) k = none :=
  aGet_filter_of_none _ k (fun p hp => by simp [hp]) l

theorem aGet_map_replace {β : Type} (t : List (String × β)) (k : String) (v : β)
    (hsome : (aGet t k).isSome = true) :
    aGet (t.map (fun p => if p.1 = k then (k, v) else p)) k = some v := by
  induction t with
  | nil => simp [aGet] at hsome
  | cons p rest ih =>
    obtain ⟨k1, v1⟩ := p
    rw [List.map_cons]
    by_cases h : k1 = k
    · have hh : (if ((k1, v1) : String × β).1 = k then (k, v) else (k1, v1))
          = (k, v) := by simp [h]
      rw [hh]
      simp [aGet]
    · have hh : (if ((k1, v1) : String × β).1 = k then (k, v) else (k1, v1))
          = (k1, v1) := by simp [h]
      rw [hh]
      simp only [aGet]
      rw [if_neg h]
      exact ih (by simpa [aGet, h] using hsome)

theorem aGet_map_replace_ne {β : Type} (t : List (String × β)) (k k2 : String) (v : β)
    (h : k2 ≠ k) :
    aGet (t.map (fun p => if p.1 = k then (k, v) else p)) k2 = aGet t k2 := by
  induction t with
  | nil => rfl
  | cons p rest ih =>
    obtain ⟨k1, v1⟩ := p
    rw [List.map_cons]
    by_cases h1 : k1 = k
    · have hh : (if ((k1, v1) : String × β).1 = k then (k, v) else (k1, v1))
          = (k, v) := by simp [h1]
      rw [hh]
      simp only [aGet]
      rw [if_neg (Ne.symm h), if_neg (fun hk2 => (Ne.symm h) (h1.symm.trans hk2))]
      exact ih
    · have hh : (if ((k1, v1) : String × β).1 = k then (k, v) else (k1, v1))
          = (k1, v1) := by simp [h1]
      rw [hh]
      simp only [aGet]
      by_cases h2 : k1 = k2
      · rw [if_pos h2, if_pos h2]
      · rw [if_neg h2, if_neg h2]
        exact ih

theorem aGet_aSet_self {β : Type} (d : List (String × β)) (k : String) (v : β) :
    aGet (aSet d k v) k = some v := by
  unfold aSet
  split
  · exact aGet_map_replace d k v (by assumption)
  · rw [aGet_append]
    rename_i hnone
    cases hd : aGet d k with
    | some w => rw [hd] at hnone; simp at hnone
    | none => simp [aGet]

theorem aGet_aSet_ne {β : Type} (d : List (String × β)) (k k2 : String) (v : β)
    (h : k2 ≠ k) : aGet (aSet d k v) k2 = aGet d k2 := by
  unfold aSet
  split
  · exact aGet_map_replace_ne d k k2 v h
  · rw [aGet_append]
    cases hd : aGet d k2 with
    | some w => simp
    | none => simp [aGet, Ne.symm h]

theorem aGet_aSet_isSome {β : Type} (d : List (String × β)) (k k2 : String) (v : β)
    (h : (aGet d k2).isSome) : (aGet (aSet d k v) k2).isSome := by
  by_cases hk : k2 = k
  · subst hk; simp [aGet_aSet_self]
  · rw [aGet_aSet_ne d k k2 v hk]; exact h

/-- The data of a string concatenation. -/
theorem mk_data_append (s t : String) : (s ++ t).data = s.data ++ t.data :=
  String.data_append s t

theorem articleKey_ne_lastUpdate (md5hex : String → String) (l : String) :
    articleKey md5hex l ≠ "crypto:news:last_update" := by
  intro h
  have hdata : "crypto:news:articles:".data ++ (md5hex l).data
      = "crypto:news:last_update".data := by
    have hc := congrArg String.data h
    rw [articleKey, mk_data_append] at hc
    exact hc
  have htake := congrArg (List.take 13) hdata
  rw [List.take_append_of_le_length (by decide)] at htake
  revert htake
  decide

theorem pyTruthy_pstr_of_ne (s : String) (h : s ≠ "") : pyTruthy (pstr s) = true := by
  cases s with
  | mk data =>
    cases data with
    | nil => exact absurd rfl h
    | cons c cs => simp [pyTruthy, List.isEmpty]

theorem isDictVal_of_dGet_some (a : PyVal) (k : String) (v : PyVal)
    (h : dGet a k = some v) : isDictVal a = true := by
  cases a <;> simp_all [dGet, isDictVal]

theorem filter_key_rSet_self (st : Store) (k : String) (v : PyVal) :
    (rSet st k v).filter (fun p => p.1 = k) = [(k, v)] := by
  unfold rSet
  rw [List.filter_append]
  have h1 : (st.filter (fun p => p.1 ≠ k)).filter (fun p => p.1 = k) = [] := by
    rw [List.filter_eq_nil_iff]
    intro a ha
    have := (List.mem_filter.mp ha).2
    simp_all
  rw [h1]
  simp [List.filter]

theorem filter_key_rSet_ne (st : Store) (k k2 : String) (v : PyVal) (h : k2 ≠ k) :
    (rSet st k2 v).filter (fun p => p.1 = k) = st.filter (fun p => p.1 = k) := by
  unfold rSet
  rw [List.filter_append]
  have h2 : (List.filter (fun p => p.1 = k) [(k2, v)]) = [] := by
    simp [List.filter_cons, h]
  rw [h2, List.append_nil]
  exact filter_filter_of _ _ (fun a ha => by
    simp only [decide_eq_true_eq] at ha
    simp [ha, Ne.symm h]) st

theorem rGet_rSet_self (st : Store) (k : String) (v : PyVal) :
    rGet (rSet st k v) k = some v := by
  unfold rGet rSet
  rw [aGet_append, aGet_filter_ne]
  simp [aGet]

theorem rGet_rSet_ne (st : Store) (k k2 : String) (v : PyVal) (h : k2 ≠ k) :
    rGet (rSet st k2 v) k = rGet st k := by
  unfold rGet rSet
  rw [aGet_append]
  have hf : aGet (st.filter (fun p => p.1 ≠ k2)) k = aGet st k :=
    aGet_filter_of_keep _ k (fun p hp => by
      simp only [decide_eq_true_eq] at hp ⊢
      simp [hp, Ne.symm h]) st
  rw [hf]
  cases hd : aGet st k with
  | some w => simp
  | none => simp [aGet, h]

/-! ## Claim C7 -/

/-- C7, as stated, is false: the keyword scan checks "bullish" first, so
a reply containing both keywords gets sentiment "Bullish" even though it
contains "bearish".  At the concrete unparseable reply
"bullish then bearish" the extracted sentiment is "Bullish". -/
theorem C7_counterexample :
    pyInStr "bearish" (pyLower "bullish then bearish") = true ∧
    aGet (parse_llm_response (fun _ => none) "2024-06-01T00:00:00"
      "bullish then bearish") "sentiment" = some (pstr "Bullish") ∧
    pstr "Bullish" ≠ pstr "Bearish" := by
  refine ⟨by decide, by decide, by decide⟩

/-- C7 amended: for every synthesis reply that is not parseable as JSON,
heuristic extraction returns the raw reply verbatim as `answer`; and when
the reply contains "bearish" and does not contain "bullish"
(case-insensitively), the extracted sentiment is "Bearish". -/
theorem C7_heuristic_extraction (jloads : String → Option PyVal) (now text : String)
    (hparse : jloads (cleanJsonInput text) = none) :
    aGet (parse_llm_response jloads now text) "answer" = some (pstr text) ∧
    (pyInStr "bearish" (pyLower text) = true → pyInStr "bullish" (pyLower text) = false →
      aGet (parse_llm_response jloads now text) "sentiment" = some (pstr "Bearish")) := by
  unfold parse_llm_response
  rw [hparse]
  constructor
  · simp [extract_info_from_text, aGet]
  · intro hb hnb
    simp [extract_info_from_text, aGet, hb, hnb]

theorem C7_witness :
    aGet (parse_llm_response (fun _ => none) "2024-06-01T00:00:00"
      "a clearly bearish outlook") "answer" = some (pstr "a clearly bearish outlook") ∧
    aGet (parse_llm_response (fun _ => none) "2024-06-01T00:00:00"
      "a clearly bearish outlook") "sentiment" = some (pstr "Bearish") := by
  have h := C7_heuristic_extraction (fun _ => none) "2024-06-01T00:00:00"
    "a clearly bearish outlook" rfl
  exact ⟨h.1, h.2 (by decide) (by decide)⟩

/-! ## Claim C8 -/

/-- C8: storing two articles with the same non-empty link, at different
times and with different other fields, leaves exactly one cache record
under the key derived from the hash of that link, and that record holds
the second article (content-addressed idempotent upsert). -/
theorem C8_idempotent_upsert (md5hex : String → String) (now1 now2 : String)
    (st : Store) (a1 a2 : PyVal) (link : String)
    (h1 : dGet a1 "link" = some (pstr link)) (h2 : dGet a2 "link" = some (pstr link))
    (hne : link ≠ "") :
    ((set_articles md5hex now2 (set_articles md5hex now1 st [a1]) [a2]).filter
        (fun p => p.1 = articleKey md5hex link)).length = 1 ∧
    rGet (set_articles md5hex now2 (set_articles md5hex now1 st [a1]) [a2])
        (articleKey md5hex link) = some a2 := by
  have hpt : pyTruthy (pstr link) = true := pyTruthy_pstr_of_ne link hne
  have hgo : ∀ (st0 : Store) (a : PyVal), dGet a "link" = some (pstr link) →
      setArticlesGo md5hex st0 [a] = (rSet st0 (articleKey md5hex link) a, true) := by
    intro st0 a ha
    have hd : isDictVal a = true := isDictVal_of_dGet_some a "link" (pstr link) ha
    unfold setArticlesGo
    simp [hd, dGetD, ha, hpt, setArticlesGo]
  have hstep : ∀ (nowX : String) (st0 : Store) (a : PyVal),
      dGet a "link" = some (pstr link) →
      set_articles md5hex nowX st0 [a] = rSet (rSet st0 (articleKey md5hex link) a)
        "crypto:news:last_update" (pstr nowX) := by
    intro nowX st0 a ha
    unfold set_articles
    rw [hgo st0 a ha]
  rw [hstep now2 _ a2 h2, hstep now1 st a1 h1]
  constructor
  · rw [filter_key_rSet_ne _ _ _ _ (articleKey_ne_lastUpdate md5hex link).symm,
      filter_key_rSet_self]
    rfl
  · rw [rGet_rSet_ne _ _ _ _ (articleKey_ne_lastUpdate md5hex link).symm,
      rGet_rSet_self]

theorem C8_witness :
    dGet dupArticle "link" = some (pstr "http://a") ∧ "http://a" ≠ "" ∧
    ((set_articles (fun s => s) "T2" (set_articles (fun s => s) "T1" [] [dupArticle])
        [dupArticle]).filter (fun p => p.1 = articleKey (fun s => s) "http://a")).length = 1 ∧
    rGet (set_articles (fun s => s) "T2" (set_articles (fun s => s) "T1" [] [dupArticle])
        [dupArticle]) (articleKey (fun s => s) "http://a") = some dupArticle := by
  have h := C8_idempotent_upsert (fun s => s) "T1" "T2" [] dupArticle dupArticle
    "http://a" (by decide) (by decide) (by decide)
  exact ⟨by decide, by decide, h.1, h.2⟩

/-! ## Claim C2 -/

/-- The prompt construction of `select_tools` (`agent.py` line 58) raises
on every call: the template field is named `tool_descriptions` while the
keyword supplied is `tools_needed`, and `str.format` scans left to right
to the first replacement field and raises `KeyError` there. -/
theorem format_always_keyerror :
    pyFormat TOOL_SELECTION_PROMPT "tools_needed" toolDescriptionsText
      = Except.error "KeyError: tool_descriptions" := rfl

/-- The selector therefore returns the fixed default pair on every call,
whatever the model or the JSON parser would have done: the `KeyError`
reaches the outer `except` before either is consulted. -/
theorem select_tools_always_default (env : Env) (q : String) :
    select_tools env q = some (defaultToolPair q) := by
  unfold select_tools
  rw [format_always_keyerror]

/-- C2: `select_tools` degrades to the fixed default pair
[crypto_search, twitter] as claimed — and on every call, not only when
the model errs or replies badly: the prompt construction at `agent.py`
line 58 formats `TOOL_SELECTION_PROMPT` with the keyword `tools_needed`
while the template's only replacement field is named `tool_descriptions`
(`prompts.py` line 5), so `str.format` raises `KeyError` before the model
is consulted and the outer `except` (lines 109-115) returns the default
pair.  The branches handling model errors, unparseable replies and
unregistered tool names are unreachable.  The default pair is non-empty,
so the dispatch list is never empty. -/
theorem C2_default_pair (env : Env) (q : String) :
    pyFormat TOOL_SELECTION_PROMPT "tools_needed" toolDescriptionsText
      = Except.error "KeyError: tool_descriptions" ∧
    select_tools env q = some (defaultToolPair q) ∧
    defaultToolPair q ≠ [] := by
  refine ⟨format_always_keyerror, select_tools_always_default env q, ?_⟩
  simp [defaultToolPair]

/-! ## Claim C9 -/

theorem pubExcluded_false_of_bad (parseISO : String → Option Int) (now hb : Int)
    (a : PyVal) (hbad : badTimestamp parseISO a = true) :
    pubExcluded parseISO now hb a = false := by
  unfold badTimestamp at hbad
  unfold pubExcluded
  cases hdg : dGet a "published" with
  | none => rfl
  | some v =>
    rw [hdg] at hbad
    cases v <;> simp_all

/-- Every article surviving the scan-and-filter of a store whose
articles-namespace values all have string-or-missing `published` keys has
a string sort key. -/
theorem keptArticles_all_strkey (parseISO : String → Option Int) (now : Int)
    (st : Store) (hoursBack : Option Int)
    (hgood : ∀ p ∈ st, pyStartsWith p.1 "crypto:news:articles:" = true →
      pubKeyIsStr p.2 = true) :
    (keptArticles parseISO now st hoursBack).all pubKeyIsStr = true := by
  rw [List.all_eq_true]
  intro x hx
  unfold keptArticles at hx
  rw [List.mem_filter] at hx
  obtain ⟨hx1, _⟩ := hx
  rw [List.mem_map] at hx1
  obtain ⟨p, hp, hpx⟩ := hx1
  rw [List.mem_filter] at hp
  rw [← hpx]
  exact hgood p hp.1 hp.2

/-- C9: the claim holds with a store-side proviso the original statement
lacked.  An article stored under the articles namespace whose `published`
timestamp is missing or an unparseable string is never excluded by the
age-window filter for any `hours_back` (fail open: the exception from
`datetime.fromisoformat` is swallowed and the article kept), and —
provided every stored article under the namespace has a
missing-or-string `published`, so the sort cannot raise — it is in the
returned list whenever the kept articles fit in `limit`.  Without the
proviso the conclusion fails: see the counterexample, where a sibling
article with a numeric `published` makes the sort raise `TypeError` and
`get_articles` return `[]`. -/
theorem C9_fail_open (parseISO : String → Option Int) (now : Int) (st : Store)
    (limit : Nat) (hoursBack : Option Int) (k : String) (a : PyVal)
    (hmem : (k, a) ∈ st) (hpfx : pyStartsWith k "crypto:news:articles:" = true)
    (hbad : badTimestamp parseISO a = true)
    (hgood : ∀ p ∈ st, pyStartsWith p.1 "crypto:news:articles:" = true →
      pubKeyIsStr p.2 = true) :
    a ∈ keptArticles parseISO now st hoursBack ∧
    ((keptArticles parseISO now st hoursBack).length ≤ limit →
      a ∈ get_articles parseISO now st limit hoursBack) := by
  have hkept : a ∈ keptArticles parseISO now st hoursBack := by
    unfold keptArticles
    rw [List.mem_filter]
    constructor
    · rw [List.mem_map]
      exact ⟨(k, a), List.mem_filter.mpr ⟨hmem, hpfx⟩, rfl⟩
    · cases hoursBack with
      | none => rfl
      | some hb => simp [pubExcluded_false_of_bad parseISO now hb a hbad]
  refine ⟨hkept, fun hlen => ?_⟩
  unfold get_articles
  rw [if_pos (Or.inr (keptArticles_all_strkey parseISO now st hoursBack hgood))]
  rw [List.take_of_length_le (by rw [List.length_mergeSort]; exact hlen)]
  exact List.mem_mergeSort.mpr hkept

/-- C9 counterexample to the unamended statement: `badPubArticle` has a
missing `published` (so the filter keeps it), yet storing it alongside
`numPubArticle`, whose `published` is the number 5, makes the sort
compare the string key "" with 5; Python raises `TypeError`, the outer
`except` returns `[]`, and the kept article is not in the result. -/
theorem C9_counterexample :
    badTimestamp (fun _ => none) badPubArticle = true ∧
    badPubArticle ∈ keptArticles (fun _ => none) 0
      [("crypto:news:articles:k1", badPubArticle),
       ("crypto:news:articles:k2", numPubArticle)] (some 24) ∧
    (keptArticles (fun _ => none) 0
      [("crypto:news:articles:k1", badPubArticle),
       ("crypto:news:articles:k2", numPubArticle)] (some 24)).length ≤ 100 ∧
    get_articles (fun _ => none) 0
      [("crypto:news:articles:k1", badPubArticle),
       ("crypto:news:articles:k2", numPubArticle)] 100 (some 24) = [] ∧
    badPubArticle ∉ get_articles (fun _ => none) 0
      [("crypto:news:articles:k1", badPubArticle),
       ("crypto:news:articles:k2", numPubArticle)] 100 (some 24) := by
  refine ⟨by decide, by decide, by decide, by decide, by decide⟩

theorem C9_witness :
    badTimestamp (fun _ => none) (toPD [("title", pstr "t"), ("published", pstr "not-a-date")])
      = true ∧
    (toPD [("title", pstr "t"), ("published", pstr "not-a-date")]) ∈
      get_articles (fun _ => none) 0
        [("crypto:news:articles:abc", toPD [("title", pstr "t"), ("published", pstr "not-a-date")])]
        100 (some 24) := by
  have h := C9_fail_open (fun _ => none) 0
    [("crypto:news:articles:abc", toPD [("title", pstr "t"), ("published", pstr "not-a-date")])]
    100 (some 24) "crypto:news:articles:abc"
    (toPD [("title", pstr "t"), ("published", pstr "not-a-date")])
    (by decide) (by decide) (by decide) (by decide)
  exact ⟨by decide, h.2 (by decide)⟩

/-! ## Claim C10 -/

theorem pubDescLE_trans (a b c : PyVal) (hab : pubDescLE a b = true)
    (hbc : pubDescLE b c = true) : pubDescLE a c = true :=
  lexLE_trans hbc hab

theorem pubDescLE_total (a b : PyVal) : (pubDescLE a b || pubDescLE b a) = true := by
  rcases lexLE_total (pubKeyChars b) (pubKeyChars a) with h | h <;>
    simp [pubDescLE, h]

/-- C10: `get_articles` returns at most `limit` articles, sorted in
descending order of the `published` sort key (`x.get("published", "")`),
which entails that an article lacking a `published` field is only ever
followed by articles whose sort key is also empty. -/
theorem C10_limit_and_sorted (parseISO : String → Option Int) (now : Int)
    (st : Store) (limit : Nat) (hoursBack : Option Int) :
    (get_articles parseISO now st limit hoursBack).length ≤ limit ∧
    List.Pairwise (fun a b => pubDescLE a b = true)
      (get_articles parseISO now st limit hoursBack) ∧
    List.Pairwise (fun a b => dGet a "published" ≠ none ∨ pubKeyChars b = [])
      (get_articles parseISO now st limit hoursBack) := by
  unfold get_articles
  split
  · have hsorted : List.Pairwise (fun a b => pubDescLE a b = true)
        ((keptArticles parseISO now st hoursBack).mergeSort pubDescLE) :=
      @List.sorted_mergeSort PyVal pubDescLE
        (fun a b c => pubDescLE_trans a b c)
        (fun a b => pubDescLE_total a b)
        (keptArticles parseISO now st hoursBack)
    have hsorted2 : List.Pairwise (fun a b => pubDescLE a b = true)
        (((keptArticles parseISO now st hoursBack).mergeSort pubDescLE).take limit) :=
      List.Pairwise.sublist (List.take_sublist _ _) hsorted
    refine ⟨?_, hsorted2, ?_⟩
    · rw [List.length_take]
      exact min_le_left _ _
    · refine hsorted2.imp ?_
      intro a b hab
      by_cases hpub : dGet a "published" = none
      · right
        have hka : pubKeyChars a = [] := by unfold pubKeyChars; rw [hpub]
        rw [pubDescLE, hka] at hab
        exact lexLE_nil_right hab
      · left; exact hpub
  · exact ⟨by simp, List.Pairwise.nil, List.Pairwise.nil⟩

/-! ## Claim C4 -/

theorem buildLoop1_shape (titles : List PyVal) (m : Nat) :
    ∀ (xs acc ret : List PyVal), buildLoop1 titles m xs acc = Except.ok ret →
      ∃ sub, ret = acc ++ sub ∧ sub.Sublist xs := by
  intro xs
  induction xs with
  | nil =>
    intro acc ret h
    unfold buildLoop1 at h
    exact ⟨[], by simpa using (Except.ok.inj h).symm, List.Sublist.refl []⟩
  | cons a rest ih =>
    intro acc ret h
    unfold buildLoop1 at h
    cases hg : pyGetA a "title" (pstr "") with
    | error e =>
      rw [hg] at h
      simp at h
    | ok t =>
      rw [hg] at h
      dsimp only at h
      by_cases hcond : t ∈ titles ∧ acc.length < m
      · rw [if_pos hcond] at h
        obtain ⟨sub, hs, hsub⟩ := ih (acc ++ [a]) ret h
        exact ⟨a :: sub, by simpa using hs, List.Sublist.cons₂ a hsub⟩
      · rw [if_neg hcond] at h
        obtain ⟨sub, hs, hsub⟩ := ih acc ret h
        exact ⟨sub, hs, List.Sublist.cons a hsub⟩

theorem buildLoop2_cons (m : Nat) (x : PyVal) (rest acc : List PyVal) :
    buildLoop2 m (x :: rest) acc =
      buildLoop2 m rest (if x ∉ acc ∧ acc.length < m then acc ++ [x] else acc) := rfl

theorem buildLoop2_complete (m : Nat) (ys : List PyVal) (_hnd : ys.Nodup)
    (hlen : ys.length < m) :
    ∀ (xs acc : List PyVal), acc.Nodup → acc ⊆ ys → xs ⊆ ys →
      (buildLoop2 m xs acc).Nodup ∧ (buildLoop2 m xs acc) ⊆ ys ∧
      (∀ x ∈ xs, x ∈ buildLoop2 m xs acc) ∧ (∀ x ∈ acc, x ∈ buildLoop2 m xs acc) := by
  intro xs
  induction xs with
  | nil =>
    intro acc ha hs _
    exact ⟨ha, hs, by simp, fun x hx => hx⟩
  | cons x rest ih =>
    intro acc hand hasub hxs
    rw [buildLoop2_cons]
    by_cases hx : x ∈ acc
    · have hcond : ¬ (x ∉ acc ∧ acc.length < m) := fun hc => hc.1 hx
      rw [if_neg hcond]
      obtain ⟨h1, h2, h3, h4⟩ := ih acc hand hasub (fun y hy => hxs (List.mem_cons_of_mem x hy))
      exact ⟨h1, h2, fun y hy => by
        rcases List.mem_cons.mp hy with rfl | hy2
        · exact h4 y hx
        · exact h3 y hy2, h4⟩
    · have hlt : acc.length < m :=
        lt_of_le_of_lt (List.Subperm.length_le (List.subperm_of_subset hand hasub)) hlen
      rw [if_pos ⟨hx, hlt⟩]
      have hand2 : (acc ++ [x]).Nodup := by
        rw [List.nodup_append]
        exact ⟨hand, List.nodup_singleton x, fun y hy hy2 => by
          rw [List.mem_singleton.mp hy2] at hy; exact hx hy⟩
      have hsub2 : (acc ++ [x]) ⊆ ys := by
        intro y hy
        rcases List.mem_append.mp hy with hy1 | hy2
        · exact hasub hy1
        · rw [List.mem_singleton.mp hy2]; exact hxs (List.mem_cons_self x rest)
      obtain ⟨h1, h2, h3, h4⟩ := ih (acc ++ [x]) hand2 hsub2
        (fun y hy => hxs (List.mem_cons_of_mem x hy))
      refine ⟨h1, h2, fun y hy => ?_, fun y hy => h4 y (List.mem_append_left _ hy)⟩
      rcases List.mem_cons.mp hy with rfl | hy2
      · exact h4 y (List.mem_append_right _ (List.mem_singleton_self y))
      · exact h3 y hy2

theorem buildCore_ret2 (pj : List (String × PyVal)) (arts : List PyVal) (m : Nat)
    (ctx0 : String) (ret2 : List PyVal)
    (hc : buildCore pj arts m = Except.ok (ctx0, ret2)) :
    ∃ ret1 : List PyVal,
      (ret1 = [] ∨ ∃ titles, buildLoop1 titles m arts [] = Except.ok ret1) ∧
      ret2 = (if ret1.length < m then buildLoop2 m arts ret1 else ret1) := by
  unfold buildCore at hc
  dsimp only at hc
  split at hc
  · cases hc
  · split at hc
    · cases hc
    · split at hc
      · cases hc
      · split at hc
        · cases hc
        · rename_i ret1 hsrc
          have hpair := Except.ok.inj hc
          have hr2 : ret2 = if ret1.length < m then buildLoop2 m arts ret1 else ret1 :=
            (congrArg Prod.snd hpair).symm
          refine ⟨ret1, ?_, hr2⟩
          split at hsrc
          · split at hsrc
            · cases hsrc
            · split at hsrc
              · cases hsrc
              · exact Or.inr ⟨_, hsrc⟩
          · exact Or.inl (Except.ok.inj hsrc).symm

theorem build_response_shape (q : String) (pj : List (String × PyVal))
    (arts : List PyVal) (m : Nat) (now : String) (r : List (String × PyVal))
    (hok : buildFinalResponse q pj arts m now = Except.ok r) :
    ∃ ctx0 ret2, buildCore pj arts m = Except.ok (ctx0, ret2) ∧
      aGet r "articles" = some (toPL (ret2.take m)) ∧
      aGet r "query" = some (pstr q) ∧
      aGet r "sentiment" = some (aGetD pj "sentiment" (pstr "Neutral")) ∧
      aGet r "context" = some (pstr ctx0) ∧
      aGet r "processed_at" = some (pstr now) := by
  unfold buildFinalResponse at hok
  cases hcore : buildCore pj arts m with
  | error e => rw [hcore] at hok; cases hok
  | ok p =>
    obtain ⟨ctx0, ret2⟩ := p
    rw [hcore] at hok
    dsimp only at hok
    have hr := (Except.ok.inj hok).symm
    subst hr
    exact ⟨ctx0, ret2, rfl, rfl, rfl, rfl, rfl, rfl⟩

/-- C4, as stated, is false: the backfill loop's membership test
(`article not in return_articles`, `agent.py` line 347) collapses
duplicate articles, so a corpus of two equal articles with
`min_articles = 3` yields one returned article, not two.  (Claim requires
the returned count to equal the corpus size whenever the corpus is
smaller than `min_articles`.) -/
theorem C4_counterexample :
    buildFinalResponse "btc" [] [dupArticle, dupArticle] 3 "T17" = Except.ok
      [("query", pstr "btc"),
       ("answer", pstr "No analysis available."),
       ("sentiment", pstr "Neutral"),
       ("context", pstr "Based on analysis of recent cryptocurrency news."),
       ("trending_topics", toPL [pstr "Bitcoin", pstr "Ethereum", pstr "Cryptocurrency"]),
       ("articles", toPL [dupArticle]),
       ("article_analysis", lnil),
       ("processed_at", pstr "T17")] ∧
    ([dupArticle, dupArticle] : List PyVal).length < 3 ∧
    (chainToList (toPL [dupArticle])).length ≠ ([dupArticle, dupArticle] : List PyVal).length := by
  refine ⟨rfl, by decide, by decide⟩

/-- C4 amended: the `articles` field of a successfully built final
response has length at most `min_articles`; and whenever the combined
corpus holds fewer than `min_articles` pairwise-distinct articles, the
returned article count equals the corpus size. -/
theorem C4_article_bounds (q : String) (pj : List (String × PyVal))
    (arts : List PyVal) (m : Nat) (now : String) (r : List (String × PyVal))
    (hok : buildFinalResponse q pj arts m now = Except.ok r) :
    (chainToList (aGetD r "articles" lnil)).length ≤ m ∧
    (arts.Nodup → arts.length < m →
      (chainToList (aGetD r "articles" lnil)).length = arts.length) := by
  obtain ⟨ctx0, ret2, hcore, harts, -⟩ := build_response_shape q pj arts m now r hok
  have hfield : chainToList (aGetD r "articles" lnil) = ret2.take m := by
    rw [aGetD, harts, Option.getD_some, chainToList_toPL]
  rw [hfield]
  constructor
  · rw [List.length_take]; exact min_le_left _ _
  · intro hnd hlen
    obtain ⟨ret1, hsrc, hret2⟩ := buildCore_ret2 pj arts m ctx0 ret2 hcore
    have hret1p : ret1.Nodup ∧ ret1 ⊆ arts := by
      rcases hsrc with rfl | ⟨titles, hl1⟩
      · exact ⟨List.nodup_nil, by simp⟩
      · obtain ⟨sub, hs, hsub⟩ := buildLoop1_shape titles m arts [] ret1 hl1
        rw [hs, List.nil_append]
        exact ⟨List.Nodup.sublist hsub hnd, hsub.subset⟩
    have hr1len : ret1.length < m :=
      lt_of_le_of_lt (List.Subperm.length_le (List.subperm_of_subset hret1p.1 hret1p.2)) hlen
    rw [if_pos hr1len] at hret2
    obtain ⟨h1, h2, h3, -⟩ := buildLoop2_complete m arts hnd hlen arts ret1 hret1p.1
      hret1p.2 (fun y hy => hy)
    have hsub1 : (buildLoop2 m arts ret1) ⊆ arts := h2
    have hsub2 : arts ⊆ (buildLoop2 m arts ret1) := fun y hy => h3 y hy
    have hlene : (buildLoop2 m arts ret1).length = arts.length :=
      le_antisymm (List.Subperm.length_le (List.subperm_of_subset h1 hsub1))
        (List.Subperm.length_le (List.subperm_of_subset hnd hsub2))
    rw [hret2, List.take_of_length_le (by rw [hlene]; exact le_of_lt hlen), hlene]

theorem C4_witness :
    buildFinalResponse "btc" [] [dupArticle, otherArticle] 3 "T18" = Except.ok
      [("query", pstr "btc"),
       ("answer", pstr "No analysis available."),
       ("sentiment", pstr "Neutral"),
       ("context", pstr "Based on analysis of recent cryptocurrency news."),
       ("trending_topics", toPL [pstr "Bitcoin", pstr "Ethereum", pstr "Cryptocurrency"]),
       ("articles", toPL [dupArticle, otherArticle]),
       ("article_analysis", lnil),
       ("processed_at", pstr "T18")] ∧
    (chainToList (aGetD
      [("query", pstr "btc"),
       ("answer", pstr "No analysis available."),
       ("sentiment", pstr "Neutral"),
       ("context", pstr "Based on analysis of recent cryptocurrency news."),
       ("trending_topics", toPL [pstr "Bitcoin", pstr "Ethereum", pstr "Cryptocurrency"]),
       ("articles", toPL [dupArticle, otherArticle]),
       ("article_analysis", lnil),
       ("processed_at", pstr "T18")] "articles" lnil)).length ≤ 3 ∧
    (chainToList (aGetD
      [("query", pstr "btc"),
       ("answer", pstr "No analysis available."),
       ("sentiment", pstr "Neutral"),
       ("context", pstr "Based on analysis of recent cryptocurrency news."),
       ("trending_topics", toPL [pstr "Bitcoin", pstr "Ethereum", pstr "Cryptocurrency"]),
       ("articles", toPL [dupArticle, otherArticle]),
       ("article_analysis", lnil),
       ("processed_at", pstr "T18")] "articles" lnil)).length
      = ([dupArticle, otherArticle] : List PyVal).length := by
  have hok : buildFinalResponse "btc" [] [dupArticle, otherArticle] 3 "T18" = Except.ok
      [("query", pstr "btc"),
       ("answer", pstr "No analysis available."),
       ("sentiment", pstr "Neutral"),
       ("context", pstr "Based on analysis of recent cryptocurrency news."),
       ("trending_topics", toPL [pstr "Bitcoin", pstr "Ethereum", pstr "Cryptocurrency"]),
       ("articles", toPL [dupArticle, otherArticle]),
       ("article_analysis", lnil),
       ("processed_at", pstr "T18")] := rfl
  have h := C4_article_bounds "btc" [] [dupArticle, otherArticle] 3 "T18" _ hok
  exact ⟨hok, h.1, h.2 (by decide) (by decide)⟩

/-! ## Claim C5 -/

theorem mergeOne_articles (c : Combined) (r : ToolResult) (c2 : Combined)
    (h : mergeOne c r = Except.ok c2) :
    ∃ l, respArticles r = Except.ok l ∧ c2.articles = c.articles ++ l := by
  unfold mergeOne at h
  unfold respArticles
  by_cases hA : (aGet r "articles").isSome
  · rw [if_pos hA] at h ⊢
    cases hIA : pyIterate (aGetD r "articles" lnil) with
    | error e => rw [hIA] at h; cases h
    | ok els =>
      rw [hIA] at h
      dsimp only at h ⊢
      by_cases hT : (aGet r "tweets").isSome
      · rw [if_pos hT] at h ⊢
        cases hIT : pyIterate (aGetD r "tweets" lnil) with
        | error e => rw [hIT] at h; cases h
        | ok tws =>
          rw [hIT] at h
          dsimp only at h ⊢
          unfold mergeTweetsInto at h
          cases hM : tws.mapM tweetToArticle with
          | error e => rw [hM] at h; cases h
          | ok arts2 =>
            rw [hM] at h
            dsimp only at h
            refine ⟨els ++ arts2, rfl, ?_⟩
            have hc2 := (Except.ok.inj h).symm
            subst hc2
            by_cases hTC : (aGet r "time_context").isSome
            · rw [if_pos hTC]; simp
            · rw [if_neg hTC]; simp
      · rw [if_neg hT] at h ⊢
        dsimp only at h ⊢
        refine ⟨els ++ [], rfl, ?_⟩
        have hc2 := (Except.ok.inj h).symm
        subst hc2
        by_cases hTC : (aGet r "time_context").isSome
        · rw [if_pos hTC]; simp
        · rw [if_neg hTC]; simp
  · rw [if_neg hA] at h ⊢
    dsimp only at h ⊢
    by_cases hT : (aGet r "tweets").isSome
    · rw [if_pos hT] at h ⊢
      cases hIT : pyIterate (aGetD r "tweets" lnil) with
      | error e => rw [hIT] at h; cases h
      | ok tws =>
        rw [hIT] at h
        dsimp only at h ⊢
        unfold mergeTweetsInto at h
        cases hM : tws.mapM tweetToArticle with
        | error e => rw [hM] at h; cases h
        | ok arts2 =>
          rw [hM] at h
          dsimp only at h
          refine ⟨[] ++ arts2, rfl, ?_⟩
          have hc2 := (Except.ok.inj h).symm
          subst hc2
          by_cases hTC : (aGet r "time_context").isSome
          · rw [if_pos hTC]; simp
          · rw [if_neg hTC]; simp
    · rw [if_neg hT] at h ⊢
      dsimp only at h ⊢
      refine ⟨[], rfl, ?_⟩
      have hc2 := (Except.ok.inj h).symm
      subst hc2
      by_cases hTC : (aGet r "time_context").isSome
      · rw [if_pos hTC]; simp
      · rw [if_neg hTC]; simp

theorem mergeResponses_from (rs : List (String × ToolResult)) :
    ∀ (c0 c : Combined), rs.foldlM (fun c p => mergeOne c p.2) c0 = Except.ok c →
      ∃ ls : List (List PyVal), rs.mapM (fun p => respArticles p.2) = Except.ok ls ∧
        c.articles = c0.articles ++ ls.flatten := by
  induction rs with
  | nil =>
    intro c0 c h
    refine ⟨[], rfl, ?_⟩
    have : c0 = c := Except.ok.inj h
    subst this
    simp
  | cons p rest ih =>
    intro c0 c h
    rw [List.foldlM_cons] at h
    cases hm : mergeOne c0 p.2 with
    | error e => rw [hm] at h; cases h
    | ok c1 =>
      rw [hm] at h
      obtain ⟨ls, hls, hart⟩ := ih c1 c h
      obtain ⟨l1, hl1, hart1⟩ := mergeOne_articles c0 p.2 c1 hm
      refine ⟨l1 :: ls, ?_, ?_⟩
      · rw [List.mapM_cons, hl1]
        simp only [bind, Except.bind, hls]
        rfl
      · rw [hart, hart1]
        simp [List.flatten]

/-- C5: the merge folds the usable responses in `tool_responses`
insertion order, which is the await order of the dispatched tasks; but on
every execution the dispatched tool list is the fixed default pair
crypto_search-then-twitter (see the C2 analysis: the selector's prompt
construction raises unconditionally), and that dispatch order agrees with
the registration order of those two tools.  Sorting the gathered usable
responses by registry position is therefore the identity, and the merge
in registration order coincides with the code's insertion-order merge, as
the claim describes. -/
theorem C5_registration_order (env : Env) (q : String) :
    select_tools env q = some (defaultToolPair q) ∧
    makeTasks (defaultToolPair q) q
      = Except.ok [("crypto_search", pstr q), ("twitter", pstr q)] ∧
    sortByRegistry (gatherResponses env [("crypto_search", pstr q), ("twitter", pstr q)])
      = gatherResponses env [("crypto_search", pstr q), ("twitter", pstr q)] ∧
    mergeInRegistrationOrder
        (gatherResponses env [("crypto_search", pstr q), ("twitter", pstr q)])
      = mergeResponses (gatherResponses env [("crypto_search", pstr q), ("twitter", pstr q)]) := by
  have hsort : sortByRegistry
        (gatherResponses env [("crypto_search", pstr q), ("twitter", pstr q)])
      = gatherResponses env [("crypto_search", pstr q), ("twitter", pstr q)] := by
    unfold gatherResponses
    simp only [List.foldl]
    cases h1 : env.toolExec "crypto_search" (pstr q) <;>
      cases h2 : env.toolExec "twitter" (pstr q) <;>
      (try dsimp only) <;>
      (repeat' split) <;>
      rfl
  refine ⟨select_tools_always_default env q, rfl, hsort, ?_⟩
  unfold mergeInRegistrationOrder
  rw [hsort]

/-! ## Fallback-chain inversion lemmas (used by C3 and C6) -/

theorem chainStage1_cases (env : Env) (q : String) (ctx : Option (List (String × PyVal)))
    (c : Combined) (rs : List (String × ToolResult)) :
    (∃ e, chainStage1 env q ctx c rs = (Except.error e, [])) ∨
    chainStage1 env q ctx c rs = (Except.ok (c, rs), []) ∨
    (∃ e i, chainStage1 env q ctx c rs = (Except.error e, [Event.fallbackCall 1 "twitter" i])) ∨
    (∃ i, chainStage1 env q ctx c rs = (Except.ok (c, rs), [Event.fallbackCall 1 "twitter" i])) ∨
    (∃ i c2 tr, chainStage1 env q ctx c rs = (Except.ok (c2, aSet rs "twitter" tr),
      [Event.fallbackCall 1 "twitter" i, Event.fallbackMerged "twitter"])) := by
  unfold chainStage1
  dsimp only
  repeat' split
  all_goals first
    | exact Or.inl ⟨_, rfl⟩
    | exact Or.inr (Or.inl rfl)
    | exact Or.inr (Or.inr (Or.inl ⟨_, _, rfl⟩))
    | exact Or.inr (Or.inr (Or.inr (Or.inl ⟨_, rfl⟩)))
    | exact Or.inr (Or.inr (Or.inr (Or.inr ⟨_, _, _, rfl⟩)))

theorem chainStage2_cases (env : Env) (q : String) (c : Combined)
    (rs : List (String × ToolResult)) :
    chainStage2 env q c rs = (Except.ok (c, rs), []) ∨
    (∃ e i, chainStage2 env q c rs = (Except.error e, [Event.fallbackCall 2 "twitter" i])) ∨
    (∃ i, chainStage2 env q c rs = (Except.ok (c, rs), [Event.fallbackCall 2 "twitter" i])) ∨
    (∃ i c2 tr, chainStage2 env q c rs = (Except.ok (c2, aSet rs "twitter" tr),
      [Event.fallbackCall 2 "twitter" i, Event.fallbackMerged "twitter"])) := by
  unfold chainStage2
  dsimp only
  repeat' split
  all_goals first
    | exact Or.inl rfl
    | exact Or.inr (Or.inl ⟨_, _, rfl⟩)
    | exact Or.inr (Or.inr (Or.inl ⟨_, rfl⟩))
    | exact Or.inr (Or.inr (Or.inr ⟨_, _, _, rfl⟩))

theorem chainStage3_cases (env : Env) (q : String) (c : Combined)
    (rs : List (String × ToolResult)) :
    chainStage3 env q c rs = (Except.ok (c, rs), []) ∨
    (∃ e i, chainStage3 env q c rs = (Except.error e, [Event.fallbackCall 3 "crypto_news" i])) ∨
    (∃ i, chainStage3 env q c rs = (Except.ok (c, rs), [Event.fallbackCall 3 "crypto_news" i])) ∨
    (∃ i c2 nr, chainStage3 env q c rs = (Except.ok (c2, aSet rs "crypto_news" nr),
      [Event.fallbackCall 3 "crypto_news" i, Event.fallbackMerged "crypto_news"])) := by
  unfold chainStage3
  dsimp only
  repeat' split
  all_goals first
    | exact Or.inl rfl
    | exact Or.inr (Or.inl ⟨_, _, rfl⟩)
    | exact Or.inr (Or.inr (Or.inl ⟨_, rfl⟩))
    | exact Or.inr (Or.inr (Or.inr ⟨_, _, _, rfl⟩))

theorem chainStage1_skip (env : Env) (q : String) (ctx : Option (List (String × PyVal)))
    (c : Combined) (rs : List (String × ToolResult))
    (h : (aGet rs "twitter").isSome = true) :
    chainStage1 env q ctx c rs = (Except.ok (c, rs), []) ∨
    (∃ e, chainStage1 env q ctx c rs = (Except.error e, [])) := by
  unfold chainStage1
  split
  · cases hx : extractTokenName q ctx with
    | error e => exact Or.inr ⟨e, rfl⟩
    | ok tn =>
      dsimp only
      rw [if_neg]
      · exact Or.inl rfl
      · intro hcond
        rw [Option.isNone_iff_eq_none] at hcond
        rw [hcond.2] at h
        cases h
  · exact Or.inl rfl

theorem chainStage2_skip (env : Env) (q : String) (c : Combined)
    (rs : List (String × ToolResult)) (h : (aGet rs "twitter").isSome = true) :
    chainStage2 env q c rs = (Except.ok (c, rs), []) := by
  unfold chainStage2
  rw [if_neg]
  intro hcond
  rw [Option.isNone_iff_eq_none] at hcond
  rw [hcond.2] at h
  cases h

theorem chainStage3_skip (env : Env) (q : String) (c : Combined)
    (rs : List (String × ToolResult)) (h : (aGet rs "crypto_news").isSome = true) :
    chainStage3 env q c rs = (Except.ok (c, rs), []) := by
  unfold chainStage3
  rw [if_neg]
  intro hcond
  rw [Option.isNone_iff_eq_none] at hcond
  rw [hcond.2] at h
  cases h

/-- The trace a fallback stage can emit: nothing, a probe call, or a
probe call followed by a merge of that source's result. -/
def stageShape (st : Nat) (n : String) (ev : List Event) : Prop :=
  ev = [] ∨ (∃ i, ev = [Event.fallbackCall st n i]) ∨
  (∃ i, ev = [Event.fallbackCall st n i, Event.fallbackMerged n])

theorem chainStage1_shape (env : Env) (q : String) (ctx : Option (List (String × PyVal)))
    (c : Combined) (rs : List (String × ToolResult)) :
    stageShape 1 "twitter" (chainStage1 env q ctx c rs).2 := by
  rcases chainStage1_cases env q ctx c rs with ⟨e, h⟩ | h | ⟨e, i, h⟩ | ⟨i, h⟩ | ⟨i, c2, tr, h⟩ <;>
    rw [h]
  · exact Or.inl rfl
  · exact Or.inl rfl
  · exact Or.inr (Or.inl ⟨_, rfl⟩)
  · exact Or.inr (Or.inl ⟨_, rfl⟩)
  · exact Or.inr (Or.inr ⟨_, rfl⟩)

theorem chainStage2_shape (env : Env) (q : String) (c : Combined)
    (rs : List (String × ToolResult)) :
    stageShape 2 "twitter" (chainStage2 env q c rs).2 := by
  rcases chainStage2_cases env q c rs with h | ⟨e, i, h⟩ | ⟨i, h⟩ | ⟨i, c2, tr, h⟩ <;> rw [h]
  · exact Or.inl rfl
  · exact Or.inr (Or.inl ⟨_, rfl⟩)
  · exact Or.inr (Or.inl ⟨_, rfl⟩)
  · exact Or.inr (Or.inr ⟨_, rfl⟩)

theorem chainStage3_shape (env : Env) (q : String) (c : Combined)
    (rs : List (String × ToolResult)) :
    stageShape 3 "crypto_news" (chainStage3 env q c rs).2 := by
  rcases chainStage3_cases env q c rs with h | ⟨e, i, h⟩ | ⟨i, h⟩ | ⟨i, c2, nr, h⟩ <;> rw [h]
  · exact Or.inl rfl
  · exact Or.inr (Or.inl ⟨_, rfl⟩)
  · exact Or.inr (Or.inl ⟨_, rfl⟩)
  · exact Or.inr (Or.inr ⟨_, rfl⟩)

theorem stageShape_no_synth {st : Nat} {n : String} {ev : List Event}
    (h : stageShape st n ev) : Event.synthCall ∉ ev := by
  rcases h with rfl | ⟨i, rfl⟩ | ⟨i, rfl⟩ <;> simp

theorem stageShape_no_call {st : Nat} {n m : String} {ev : List Event}
    (h : stageShape st n ev) (hne : m ≠ n) :
    ∀ s i, Event.fallbackCall s m i ∉ ev := by
  rcases h with rfl | ⟨j, rfl⟩ | ⟨j, rfl⟩ <;> intro s i <;> simp [hne]

/-- No event of the fallback chain is a synthesis call, and the chain's
events decompose into the three stage traces. -/
theorem fallbackChain_events (env : Env) (q : String)
    (ctx : Option (List (String × PyVal))) (c : Combined)
    (rs : List (String × ToolResult)) :
    ∃ ev1 ev2 ev3,
      (fallbackChain env q ctx c rs).2 = ev1 ++ ev2 ++ ev3 ∧
      stageShape 1 "twitter" ev1 ∧ stageShape 2 "twitter" ev2 ∧
      stageShape 3 "crypto_news" ev3 := by
  unfold fallbackChain
  rcases hv1 : chainStage1 env q ctx c rs with ⟨r1, ev1⟩
  have hs1 : stageShape 1 "twitter" ev1 := by
    have := chainStage1_shape env q ctx c rs
    rw [hv1] at this
    exact this
  cases r1 with
  | error e =>
    exact ⟨ev1, [], [], by simp, hs1, Or.inl rfl, Or.inl rfl⟩
  | ok p1 =>
    obtain ⟨c1, rs1⟩ := p1
    dsimp only
    rcases hv2 : chainStage2 env q c1 rs1 with ⟨r2, ev2⟩
    have hs2 : stageShape 2 "twitter" ev2 := by
      have := chainStage2_shape env q c1 rs1
      rw [hv2] at this
      exact this
    cases r2 with
    | error e =>
      exact ⟨ev1, ev2, [], by simp, hs1, hs2, Or.inl rfl⟩
    | ok p2 =>
      obtain ⟨c2, rs2⟩ := p2
      dsimp only
      rcases hv3 : chainStage3 env q c2 rs2 with ⟨r3, ev3⟩
      have hs3 : stageShape 3 "crypto_news" ev3 := by
        have := chainStage3_shape env q c2 rs2
        rw [hv3] at this
        exact this
      cases r3 with
      | error e => exact ⟨ev1, ev2, ev3, rfl, hs1, hs2, hs3⟩
      | ok p3 =>
        obtain ⟨c3, rs3⟩ := p3
        exact ⟨ev1, ev2, ev3, rfl, hs1, hs2, hs3⟩

theorem fallbackChain_no_synth (env : Env) (q : String)
    (ctx : Option (List (String × PyVal))) (c : Combined)
    (rs : List (String × ToolResult)) :
    Event.synthCall ∉ (fallbackChain env q ctx c rs).2 := by
  obtain ⟨ev1, ev2, ev3, heq, h1, h2, h3⟩ := fallbackChain_events env q ctx c rs
  rw [heq]
  intro hmem
  rcases List.mem_append.mp hmem with hm | hm
  · rcases List.mem_append.mp hm with hm2 | hm2
    · exact stageShape_no_synth h1 hm2
    · exact stageShape_no_synth h2 hm2
  · exact stageShape_no_synth h3 hm

theorem preSynthesis_no_synth (env : Env) (q : String)
    (ctx : Option (List (String × PyVal))) (c : Combined)
    (rs : List (String × ToolResult)) (ev : List Event)
    (hpre : preSynthesis env q ctx = PreOut.ready c rs ev) :
    Event.synthCall ∉ ev := by
  unfold preSynthesis at hpre
  cases hsel : select_tools env q with
  | none => rw [hsel] at hpre; cases hpre
  | some sel =>
    rw [hsel] at hpre
    dsimp only at hpre
    cases hmk : makeTasks sel q with
    | error e => rw [hmk] at hpre; cases hpre
    | ok tasks =>
      rw [hmk] at hpre
      dsimp only at hpre
      cases hmg : mergeResponses (gatherResponses env tasks) with
      | error e => rw [hmg] at hpre; cases hpre
      | ok c0 =>
        rw [hmg] at hpre
        dsimp only at hpre
        rcases hv : fallbackChain env q ctx c0 (gatherResponses env tasks) with ⟨r, ev2⟩
        rw [hv] at hpre
        cases r with
        | error e => cases hpre
        | ok p =>
          have hev : ev = tasks.map (fun t => Event.toolCall t.1 t.2) ++ ev2 := by
            cases hpre; rfl
          rw [hev]
          intro hmem
          rcases List.mem_append.mp hmem with hm | hm
          · rcases List.mem_map.mp hm with ⟨t, -, ht⟩
            cases ht
          · have := fallbackChain_no_synth env q ctx c0 (gatherResponses env tasks)
            rw [hv] at this
            exact this hm

/-! ## Claim C3 -/

/-- C3: when the combined article sequence is still empty after the full
fallback chain, `process_query` returns exactly the canonical
`fallback_response` for "No relevant articles or tweets found for your
query" (with `articles = []`), and the trace ends with the chain: no
synthesis call and no further tool calls occur. -/
theorem C3_exhausted_terminal (env : Env) (q : String) (m : Nat)
    (ctx : Option (List (String × PyVal))) (c : Combined)
    (rs : List (String × ToolResult)) (ev : List Event)
    (hpre : preSynthesis env q ctx = PreOut.ready c rs ev)
    (hempty : c.articles = []) :
    process_query env q m ctx =
      (ensureRequiredFields (fallback_response noDataMsg env.now) q env.now, ev) ∧
    Event.synthCall ∉ ev := by
  constructor
  · unfold process_query
    rw [hpre]
    dsimp only
    rw [if_pos hempty]
  · exact preSynthesis_no_synth env q ctx c rs ev hpre

theorem C3_witness :
    preSynthesis exhaustEnv "zzz" none = PreOut.ready
      (Combined.mk [] [] (pstr "Recent news"))
      [("crypto_search", []), ("twitter", [])]
      [Event.toolCall "crypto_search" (pstr "zzz"), Event.toolCall "twitter" (pstr "zzz"),
       Event.fallbackCall 3 "crypto_news" (pstr "zzz")] ∧
    process_query exhaustEnv "zzz" 3 none =
      (ensureRequiredFields (fallback_response noDataMsg "2024-06-02T00:00:00") "zzz"
        "2024-06-02T00:00:00",
       [Event.toolCall "crypto_search" (pstr "zzz"), Event.toolCall "twitter" (pstr "zzz"),
        Event.fallbackCall 3 "crypto_news" (pstr "zzz")]) ∧
    Event.synthCall ∉
      [Event.toolCall "crypto_search" (pstr "zzz"), Event.toolCall "twitter" (pstr "zzz"),
       Event.fallbackCall 3 "crypto_news" (pstr "zzz")] := by
  have h := C3_exhausted_terminal exhaustEnv "zzz" 3 none
    (Combined.mk [] [] (pstr "Recent news"))
    [("crypto_search", []), ("twitter", [])]
    [Event.toolCall "crypto_search" (pstr "zzz"), Event.toolCall "twitter" (pstr "zzz"),
     Event.fallbackCall 3 "crypto_news" (pstr "zzz")]
    rfl rfl
  exact ⟨rfl, h.1, h.2⟩

/-! ## Claim C6 -/

/-- The no-duplicate-invocation discipline: once a source's fallback
result has been merged, no later event calls that source again. -/
def noCallAfterMerge (e1 e2 : Event) : Prop :=
  ∀ n, e1 = Event.fallbackMerged n → ∀ s i, e2 ≠ Event.fallbackCall s n i

theorem pairwise_glue (ev1 ev2 ev3 : List Event)
    (h1 : stageShape 1 "twitter" ev1) (h2 : stageShape 2 "twitter" ev2)
    (h3 : stageShape 3 "crypto_news" ev3)
    (hm : Event.fallbackMerged "twitter" ∈ ev1 → ev2 = []) :
    List.Pairwise noCallAfterMerge (ev1 ++ ev2 ++ ev3) := by
  rcases h1 with rfl | ⟨i1, rfl⟩ | ⟨i1, rfl⟩
  · rcases h2 with rfl | ⟨i2, rfl⟩ | ⟨i2, rfl⟩ <;>
      rcases h3 with rfl | ⟨i3, rfl⟩ | ⟨i3, rfl⟩ <;>
      simp [noCallAfterMerge, List.pairwise_append, List.pairwise_cons]
  · rcases h2 with rfl | ⟨i2, rfl⟩ | ⟨i2, rfl⟩ <;>
      rcases h3 with rfl | ⟨i3, rfl⟩ | ⟨i3, rfl⟩ <;>
      simp [noCallAfterMerge, List.pairwise_append, List.pairwise_cons]
  · have hev2 : ev2 = [] := hm (by simp)
    subst hev2
    rcases h3 with rfl | ⟨i3, rfl⟩ | ⟨i3, rfl⟩ <;>
      simp [noCallAfterMerge, List.pairwise_append, List.pairwise_cons]

/-- C6: no fallback stage invokes a source that already contributed
usable data earlier.  When twitter is already among the usable tool
responses, neither the token probe nor the generic social fallback calls
twitter; when crypto_news is already among them, the generic news
fallback does not call crypto_news; and within the chain itself, no
source is called again after its fallback result was merged. -/
theorem C6_no_duplicate_source (env : Env) (q : String)
    (ctx : Option (List (String × PyVal))) (c : Combined)
    (rs : List (String × ToolResult)) :
    ((aGet rs "twitter").isSome = true →
      ∀ s i, Event.fallbackCall s "twitter" i ∉ (fallbackChain env q ctx c rs).2) ∧
    ((aGet rs "crypto_news").isSome = true →
      ∀ s i, Event.fallbackCall s "crypto_news" i ∉ (fallbackChain env q ctx c rs).2) ∧
    List.Pairwise noCallAfterMerge (fallbackChain env q ctx c rs).2 := by
  refine ⟨?_, ?_, ?_⟩
  · intro htw s i
    unfold fallbackChain
    rcases chainStage1_skip env q ctx c rs htw with h1 | ⟨e, h1⟩
    · rw [h1]
      dsimp only
      rw [chainStage2_skip env q c rs htw]
      dsimp only
      rcases hv3 : chainStage3 env q c rs with ⟨r3, ev3⟩
      have hs3 : stageShape 3 "crypto_news" ev3 := by
        have := chainStage3_shape env q c rs
        rw [hv3] at this
        exact this
      have hnc := stageShape_no_call hs3 (show "twitter" ≠ "crypto_news" by decide) s i
      cases r3 with
      | error e => simpa using hnc
      | ok p =>
        obtain ⟨c3, rs3⟩ := p
        simpa using hnc
    · rw [h1]
      simp
  · intro hcn s i
    unfold fallbackChain
    rcases chainStage1_cases env q ctx c rs with
      ⟨e, h1⟩ | h1 | ⟨e, j, h1⟩ | ⟨j, h1⟩ | ⟨j, c2, tr, h1⟩ <;> rw [h1] <;> dsimp only
    · simp
    · rcases chainStage2_cases env q c rs with
        h2 | ⟨e2, k, h2⟩ | ⟨k, h2⟩ | ⟨k, c3, tr2, h2⟩ <;> rw [h2] <;> dsimp only
      · rw [chainStage3_skip env q c rs hcn]
        simp
      · simp
      · rw [chainStage3_skip env q c rs hcn]
        simp
      · rw [chainStage3_skip env q c3 (aSet rs "twitter" tr2)
          (aGet_aSet_isSome rs "twitter" "crypto_news" tr2 hcn)]
        simp
    · simp
    · rcases chainStage2_cases env q c rs with
        h2 | ⟨e2, k, h2⟩ | ⟨k, h2⟩ | ⟨k, c3, tr2, h2⟩ <;> rw [h2] <;> dsimp only
      · rw [chainStage3_skip env q c rs hcn]
        simp
      · simp
      · rw [chainStage3_skip env q c rs hcn]
        simp
      · rw [chainStage3_skip env q c3 (aSet rs "twitter" tr2)
          (aGet_aSet_isSome rs "twitter" "crypto_news" tr2 hcn)]
        simp
    · rw [chainStage2_skip env q c2 (aSet rs "twitter" tr)
        (by rw [aGet_aSet_self]; rfl)]
      dsimp only
      rw [chainStage3_skip env q c2 (aSet rs "twitter" tr)
        (aGet_aSet_isSome rs "twitter" "crypto_news" tr hcn)]
      simp
  · unfold fallbackChain
    rcases chainStage1_cases env q ctx c rs with
      ⟨e, h1⟩ | h1 | ⟨e, j, h1⟩ | ⟨j, h1⟩ | ⟨j, c2, tr, h1⟩ <;> rw [h1] <;> dsimp only
    · simp
    · rcases hv2 : chainStage2 env q c rs with ⟨r2, ev2⟩
      have hs2 : stageShape 2 "twitter" ev2 := by
        have := chainStage2_shape env q c rs
        rw [hv2] at this
        exact this
      cases r2 with
      | error e2 =>
        dsimp only
        have := pairwise_glue [] ev2 [] (Or.inl rfl) hs2 (Or.inl rfl)
          (fun hmem => absurd hmem (by simp))
        simpa using this
      | ok p2 =>
        obtain ⟨c2, rs2⟩ := p2
        dsimp only
        rcases hv3 : chainStage3 env q c2 rs2 with ⟨r3, ev3⟩
        have hs3 : stageShape 3 "crypto_news" ev3 := by
          have := chainStage3_shape env q c2 rs2
          rw [hv3] at this
          exact this
        have hglue := pairwise_glue [] ev2 ev3 (Or.inl rfl) hs2 hs3
          (fun hmem => absurd hmem (by simp))
        cases r3 with
        | error e3 => simpa using hglue
        | ok p3 =>
          obtain ⟨c3, rs3⟩ := p3
          simpa using hglue
    · simp [noCallAfterMerge]
    · rcases hv2 : chainStage2 env q c rs with ⟨r2, ev2⟩
      have hs2 : stageShape 2 "twitter" ev2 := by
        have := chainStage2_shape env q c rs
        rw [hv2] at this
        exact this
      cases r2 with
      | error e2 =>
        dsimp only
        have := pairwise_glue [Event.fallbackCall 1 "twitter" j] ev2 []
          (Or.inr (Or.inl ⟨j, rfl⟩)) hs2 (Or.inl rfl)
          (fun hmem => absurd hmem (by simp))
        simpa using this
      | ok p2 =>
        obtain ⟨c2, rs2⟩ := p2
        dsimp only
        rcases hv3 : chainStage3 env q c2 rs2 with ⟨r3, ev3⟩
        have hs3 : stageShape 3 "crypto_news" ev3 := by
          have := chainStage3_shape env q c2 rs2
          rw [hv3] at this
          exact this
        have hglue := pairwise_glue [Event.fallbackCall 1 "twitter" j] ev2 ev3
          (Or.inr (Or.inl ⟨j, rfl⟩)) hs2 hs3
          (fun hmem => absurd hmem (by simp))
        cases r3 with
        | error e3 => simpa using hglue
        | ok p3 =>
          obtain ⟨c3, rs3⟩ := p3
          simpa using hglue
    · rw [chainStage2_skip env q c2 (aSet rs "twitter" tr)
        (by rw [aGet_aSet_self]; rfl)]
      dsimp only
      rcases hv3 : chainStage3 env q c2 (aSet rs "twitter" tr) with ⟨r3, ev3⟩
      have hs3 : stageShape 3 "crypto_news" ev3 := by
        have := chainStage3_shape env q c2 (aSet rs "twitter" tr)
        rw [hv3] at this
        exact this
      have hglue := pairwise_glue
        [Event.fallbackCall 1 "twitter" j, Event.fallbackMerged "twitter"] [] ev3
        (Or.inr (Or.inr ⟨j, rfl⟩)) (Or.inl rfl) hs3 (fun _ => rfl)
      cases r3 with
      | error e3 => simpa using hglue
      | ok p3 =>
        obtain ⟨c3, rs3⟩ := p3
        simpa using hglue

theorem C6_witness :
    Event.fallbackCall 2 "twitter" (pstr "token pepe") ∉
      (fallbackChain exhaustEnv "token pepe" none (Combined.mk [] [] (pstr "Recent news"))
        [("twitter", [("tweets", lnil)]), ("crypto_news", [("articles", lnil)])]).2 ∧
    Event.fallbackCall 3 "crypto_news" (pstr "token pepe") ∉
      (fallbackChain exhaustEnv "token pepe" none (Combined.mk [] [] (pstr "Recent news"))
        [("twitter", [("tweets", lnil)]), ("crypto_news", [("articles", lnil)])]).2 := by
  have h := C6_no_duplicate_source exhaustEnv "token pepe" none
    (Combined.mk [] [] (pstr "Recent news"))
    [("twitter", [("tweets", lnil)]), ("crypto_news", [("articles", lnil)])]
  exact ⟨h.1 (by decide) 2 (pstr "token pepe"), h.2.1 (by decide) 3 (pstr "token pepe")⟩

/-! ## Claim C1 -/

theorem fallback_response_fields (e now q now2 : String) :
    ensureRequiredFields (fallback_response e now) q now2 = fallback_response e now ∧
    aGet (fallback_response e now) "query" = some (pstr "Crypto market analysis") ∧
    aGet (fallback_response e now) "sentiment" = some (pstr "Neutral") ∧
    aGet (fallback_response e now) "context"
      = some (pstr "Unable to analyze market sentiment due to an error.") ∧
    aGet (fallback_response e now) "processed_at" = some (pstr now) :=
  ⟨rfl, rfl, rfl, rfl, rfl⟩

theorem extract_sentiment_mem (text now : String) :
    aGetD (extract_info_from_text text now) "sentiment" (pstr "Neutral") ∈ fourSentiments := by
  unfold extract_info_from_text aGetD
  by_cases h1 : pyInStr "bullish" (pyLower text) = true <;>
    by_cases h2 : pyInStr "bearish" (pyLower text) = true <;>
    by_cases h3 : pyInStr "mixed" (pyLower text) = true <;>
    simp [aGet, h1, h2, h3, fourSentiments]

theorem parsed_sentiment_ok (jl : String → Option PyVal) (now text : String) :
    aGetD (parse_llm_response jl now text) "sentiment" (pstr "Neutral") ∈ fourSentiments ∨
    some (aGetD (parse_llm_response jl now text) "sentiment" (pstr "Neutral")) =
      parsedReplySentiment jl text := by
  unfold parse_llm_response parsedReplySentiment
  cases hj : jl (cleanJsonInput text) with
  | none => exact Or.inl (extract_sentiment_mem text now)
  | some v =>
    dsimp only
    by_cases hd : isDictVal v = true
    · rw [if_pos hd]
      cases hs : aGet (dictToAssoc v) "sentiment" with
      | none => left; simp [aGetD, hs, fourSentiments]
      | some s => right; simp [aGetD, hs, hd]
    · rw [if_neg hd]
      left
      simp [aGetD, fallback_response, aGet, fourSentiments]

/-- C1, as stated, is false on two counts.  With an empty input query the
success path copies it verbatim into the response, so the `query` field
is empty; and a successfully parsed synthesis reply's `sentiment` value
is passed through unchecked, so a reply carrying `sentiment: "Garbage"`
produces a response whose sentiment lies outside
{Bullish, Bearish, Neutral, Mixed}. -/
theorem C1_counterexample :
    aGet (process_query sentimentPassThroughEnv "" 3 none).1 "query" = some (pstr "") ∧
    aGet (process_query sentimentPassThroughEnv "" 3 none).1 "sentiment"
      = some (pstr "Garbage") ∧
    pstr "Garbage" ∉ fourSentiments ∧
    (pstr "" : PyVal) = pstr "" := by
  refine ⟨by decide, by decide, by decide, rfl⟩

/-- C1 amended: for every query, `min_articles` and combination of
tool/model outcomes (including every source failing and any exception
raised during processing), `process_query` returns a response — never a
raw exception — containing `query`, `sentiment`, `context` and
`processed_at` fields; the `query` field is non-empty whenever the input
query is non-empty; and the sentiment is drawn from
{Bullish, Bearish, Neutral, Mixed} except that a successfully parsed
synthesis reply's own `sentiment` value is passed through verbatim. -/
theorem C1_response_contract (env : Env) (q : String) (m : Nat)
    (ctx : Option (List (String × PyVal))) :
    (aGet (process_query env q m ctx).1 "query").isSome = true ∧
    (aGet (process_query env q m ctx).1 "sentiment").isSome = true ∧
    (aGet (process_query env q m ctx).1 "context").isSome = true ∧
    (aGet (process_query env q m ctx).1 "processed_at").isSome = true ∧
    (q = "" ∨ aGetD (process_query env q m ctx).1 "query" pnone ≠ pstr "") ∧
    (aGetD (process_query env q m ctx).1 "sentiment" (pstr "Neutral") ∈ fourSentiments ∨
      some (aGetD (process_query env q m ctx).1 "sentiment" (pstr "Neutral")) =
        synthSentimentOverride env) := by
  unfold process_query
  have hfb : ∀ e : String,
      (aGet (ensureRequiredFields (fallback_response e env.now) q env.now) "query").isSome = true ∧
      (aGet (ensureRequiredFields (fallback_response e env.now) q env.now) "sentiment").isSome = true ∧
      (aGet (ensureRequiredFields (fallback_response e env.now) q env.now) "context").isSome = true ∧
      (aGet (ensureRequiredFields (fallback_response e env.now) q env.now) "processed_at").isSome = true ∧
      (q = "" ∨ aGetD (ensureRequiredFields (fallback_response e env.now) q env.now) "query" pnone ≠ pstr "") ∧
      (aGetD (ensureRequiredFields (fallback_response e env.now) q env.now) "sentiment" (pstr "Neutral") ∈ fourSentiments ∨
        some (aGetD (ensureRequiredFields (fallback_response e env.now) q env.now) "sentiment" (pstr "Neutral")) =
          synthSentimentOverride env) := by
    intro e
    obtain ⟨heq, hq, hs, hc, hp⟩ := fallback_response_fields e env.now q env.now
    rw [heq]
    refine ⟨by rw [hq]; rfl, by rw [hs]; rfl, by rw [hc]; rfl, by rw [hp]; rfl, ?_, ?_⟩
    · right
      rw [aGetD, hq]
      decide
    · left
      rw [aGetD, hs]
      decide
  cases hpre : preSynthesis env q ctx with
  | selNone => exact hfb noneTypeLenMsg
  | failed e ev => exact hfb e
  | ready c rs ev =>
    dsimp only
    by_cases hempty : c.articles = []
    · rw [if_pos hempty]
      exact hfb noDataMsg
    · rw [if_neg hempty]
      cases hsl : env.synthLLM with
      | error e => exact hfb e
      | ok reply =>
        dsimp only
        cases hb : buildFinalResponse q (parse_llm_response env.jloads env.now reply)
            c.articles m env.now with
        | error e => exact hfb ("Failed to process response: " ++ e)
        | ok resp =>
          dsimp only
          obtain ⟨ctx0, ret2, -, -, hq, hs, hc, hp⟩ :=
            build_response_shape q (parse_llm_response env.jloads env.now reply)
              c.articles m env.now resp hb
          refine ⟨by rw [hq]; rfl, by rw [hs]; rfl, by rw [hc]; rfl, by rw [hp]; rfl, ?_, ?_⟩
          · by_cases hq0 : q = ""
            · exact Or.inl hq0
            · right
              rw [aGetD, hq]
              intro heq
              exact hq0 (by injection heq)
          · have hval : aGetD resp "sentiment" (pstr "Neutral") =
                aGetD (parse_llm_response env.jloads env.now reply) "sentiment" (pstr "Neutral") := by
              rw [aGetD, hs]
              rfl
            rw [hval]
            have hso : synthSentimentOverride env = parsedReplySentiment env.jloads reply := by
              unfold synthSentimentOverride
              rw [hsl]
            rw [hso]
            exact parsed_sentiment_ok env.jloads env.now reply
